import Mathlib

set_option autoImplicit false

/-! Verification of the msticpy excerpt: HTTP TI provider base
(`context/tiproviders/http_provider.py`), Azure credential-chain cache
(`auth/azure_auth_core.py`) and formatting utilities
(`common/utility/format.py`).  Python code is shallowly embedded:
strings are `String`/`List Char`, dicts are association lists,
exceptions are values of `PyError` threaded through `Except`. -/

/-- Opening brace character, written via its code point. -/
def lbraceChar : Char := Char.ofNat 123

/-- Closing brace character, written via its code point. -/
def rbraceChar : Char := Char.ofNat 125

/-- Model of the Python exception values that the excerpt raises or catches.
`keyError` is what `str.format` raises for a missing named placeholder,
`indexError` what it raises for an empty (auto-numbered) field with no
positional arguments, `lookupError` the `LookupError(...)` raised for an
unsupported observable type, `notImplementedError` the unsupported verb /
auth type error, `jsonDecodeError` the `json.JSONDecodeError`,
`connectionError` the builtin `ConnectionError`, and `valueError` the
`ValueError` raised by `str.format` on a malformed format string. -/
inductive PyError where
  | keyError (key : String)
  | indexError (msg : String)
  | lookupError (msg : String)
  | notImplementedError (msg : String)
  | jsonDecodeError (msg : String)
  | connectionError (msg : String)
  | valueError (msg : String)
deriving DecidableEq, Repr

/-- Python `isinstance(err, LookupError)`: `KeyError` and `IndexError` are
subclasses of `LookupError`. -/
def PyError.isLookupError : PyError → Bool
  | .keyError _ => true
  | .indexError _ => true
  | .lookupError _ => true
  | _ => false

/-- Membership in the tuple of the `except` clause of `lookup_ioc`:
`(LookupError, JSONDecodeError, NotImplementedError, ConnectionError)`,
up to Python subclassing (`KeyError`/`IndexError` are `LookupError`s). -/
def PyError.isCaught : PyError → Bool
  | .keyError _ => true
  | .indexError _ => true
  | .lookupError _ => true
  | .notImplementedError _ => true
  | .jsonDecodeError _ => true
  | .connectionError _ => true
  | .valueError _ => false

/-- Python `type(err).__name__`. -/
def PyError.typeName : PyError → String
  | .keyError _ => "KeyError"
  | .indexError _ => "IndexError"
  | .lookupError _ => "LookupError"
  | .notImplementedError _ => "NotImplementedError"
  | .jsonDecodeError _ => "JSONDecodeError"
  | .connectionError _ => "ConnectionError"
  | .valueError _ => "ValueError"

/-- Python `str(err)`.  `str` of a `KeyError` is the `repr` of its key. -/
def PyError.toStr : PyError → String
  | .keyError k => "\x27" ++ k ++ "\x27"
  | .indexError m => m
  | .lookupError m => m
  | .notImplementedError m => m
  | .jsonDecodeError m => m
  | .connectionError m => m
  | .valueError m => m

/-- Rough model of a Python object, rich enough for `raw_result`/`details`
values flowing through the lookup executor. -/
inductive PyObj where
  | noneVal
  | str (s : String)
  | boolVal (b : Bool)
  | int (n : Int)
  | dict (entries : List (String × PyObj))
  | tup (items : List PyObj)

/-- Python `err.args` (a tuple) as a `PyObj`. -/
def PyError.argsObj : PyError → PyObj
  | .keyError k => .tup [.str k]
  | .indexError m => .tup [.str m]
  | .lookupError m => .tup [.str m]
  | .notImplementedError m => .tup [.str m]
  | .jsonDecodeError m => .tup [.str m]
  | .connectionError m => .tup [.str m]
  | .valueError m => .tup [.str m]

/-! ### Python `str.format` with keyword arguments

`"...".format(**ctx)` on the simple named-field fragment the provider
templates use: `\x7bname\x7d` substitutes `ctx[name]`, doubled braces
escape a literal brace, a missing key raises `KeyError`, an empty field
(auto-numbering with no positional arguments) raises `IndexError`, and a
malformed string (unmatched or nested brace) raises `ValueError`.
Conversion/format-spec suffixes and dotted or indexed field names are not
modelled; the provider templates do not use them. -/

/-- Scanner state for `str.format`: ordinary text, just after a lone open
brace, just after a lone close brace, or inside a field name (accumulated
in reverse). -/
inductive FmtMode where
  | normal
  | sawOpen
  | sawClose
  | name (acc : List Char)

/-- Character scanner for `str.format`, one character per step. -/
def pyFormatGo (ctx : List (String × String)) :
    List Char → FmtMode → Except PyError (List Char)
  | [], .normal => .ok []
  | [], .sawOpen => .error (.valueError "Single open brace encountered in format string")
  | [], .sawClose => .error (.valueError "Single close brace encountered in format string")
  | [], .name _ => .error (.valueError "expected close brace before end of string")
  | c :: rest, .normal =>
    if c = lbraceChar then pyFormatGo ctx rest .sawOpen
    else if c = rbraceChar then pyFormatGo ctx rest .sawClose
    else
      match pyFormatGo ctx rest .normal with
      | .error e => .error e
      | .ok t => .ok (c :: t)
  | c :: rest, .sawOpen =>
    if c = lbraceChar then
      match pyFormatGo ctx rest .normal with
      | .error e => .error e
      | .ok t => .ok (lbraceChar :: t)
    else if c = rbraceChar then
      .error (.indexError "Replacement index 0 out of range for positional args tuple")
    else pyFormatGo ctx rest (.name [c])
  | c :: rest, .sawClose =>
    if c = rbraceChar then
      match pyFormatGo ctx rest .normal with
      | .error e => .error e
      | .ok t => .ok (rbraceChar :: t)
    else .error (.valueError "Single close brace encountered in format string")
  | c :: rest, .name acc =>
    if c = rbraceChar then
      match List.lookup (String.mk acc.reverse) ctx with
      | Option.none => .error (.keyError (String.mk acc.reverse))
      | some v =>
        match pyFormatGo ctx rest .normal with
        | .error e => .error e
        | .ok t => .ok (v.data ++ t)
    else if c = lbraceChar then
      .error (.valueError "unexpected open brace in field name")
    else pyFormatGo ctx rest (.name (c :: acc))

/-- `s.format(**ctx)` for a Python string `s`. -/
def pyFormatStr (s : String) (ctx : List (String × String)) : Except PyError String :=
  match pyFormatGo ctx s.data .normal with
  | .error e => .error e
  | .ok t => .ok (String.mk t)

/-- Named placeholders of a format string, in occurrence order, or `none`
when the string is malformed for keyword-only formatting (unmatched or
nested brace, or an empty auto-numbered field).  Mirrors the branch
structure of `pyFormatGo`. -/

def namedPlaceholdersGo : List Char → FmtMode → Option (List String)
  | [], .normal => some []
  | [], .sawOpen => Option.none
  | [], .sawClose => Option.none
  | [], .name _ => Option.none
  | c :: rest, .normal =>
    if c = lbraceChar then namedPlaceholdersGo rest .sawOpen
    else if c = rbraceChar then namedPlaceholdersGo rest .sawClose
    else namedPlaceholdersGo rest .normal
  | c :: rest, .sawOpen =>
    if c = lbraceChar then namedPlaceholdersGo rest .normal
    else if c = rbraceChar then Option.none
    else namedPlaceholdersGo rest (.name [c])
  | c :: rest, .sawClose =>
    if c = rbraceChar then namedPlaceholdersGo rest .normal
    else Option.none
  | c :: rest, .name acc =>
    if c = rbraceChar then
      match namedPlaceholdersGo rest .normal with
      | Option.none => Option.none
      | some ns => some (String.mk acc.reverse :: ns)
    else if c = lbraceChar then Option.none
    else namedPlaceholdersGo rest (.name (c :: acc))

/-- Named placeholders of a Python string, or `none` if malformed. -/
def namedPlaceholders (s : String) : Option (List String) :=
  namedPlaceholdersGo s.data .normal




/-! ### Request template and provider data (`http_provider.py`) -/

/-- `IoCLookupParams` from `http_provider.py`: declarative description of
one HTTP request (attrs class, same field names and defaults). -/
structure IoCLookupParams where
  path : String := ""
  verb : String := "GET"
  full_url : Bool := false
  headers : List (String × String) := []
  params : List (String × String) := []
  data : List (String × String) := []
  auth_type : String := ""
  auth_str : List String := []
  sub_type : String := ""

/-- The per-instance state of an `HttpTIProvider` that `_substitute_parms`
reads: `_BASE_URL`, the registered `ioc_query_defs` template table, and
`_request_params` (API_ID / API_KEY values collected in `__init__`). -/
structure HttpProvider where
  base_url : String := ""
  ioc_query_defs : List (String × IoCLookupParams) := []
  request_params : List (String × String) := []

/-- The substitution context of `_substitute_parms`:
`req_params = dict(observable=value); req_params.update(self._request_params)`.
With first-match lookup, putting `_request_params` first gives Python's
later-update-wins dict semantics. -/
def buildCtx (prov : HttpProvider) (value : String) : List (String × String) :=
  prov.request_params ++ [("observable", value)]

/-- The template key: `f"{value_type}-{query_type}" if query_type else value_type`. -/
def valueKey (value_type : String) : Option String → String
  | some qt => value_type ++ "-" ++ qt
  | Option.none => value_type

/-- The keyword arguments passed to `httpx_client.get`: headers, url and
optional query params, body data and basic-auth tuple. -/
structure ReqDict where
  headers : List (String × String) := []
  url : String := ""
  params : Option (List (String × String)) := Option.none
  data : Option (List (String × String)) := Option.none
  auth : Option (List String) := Option.none

/-- Modelled from the spec: `mp_ua_header` (in `common/utility`, outside
the excerpt) returns the default identifying `User-Agent` header that is
added when no formatted header already set one. -/
def mpUaHeader : List (String × String) := [("User-Agent", "MSTICPy")]

/-- Python dict comprehension
`\x7bkey: val.format(**req_params) for key, val in d.items()\x7d`:
entries formatted in order, first failure raises. -/
def formatDict (ctx : List (String × String)) :
    List (String × String) → Except PyError (List (String × String))
  | [] => .ok []
  | (k, v) :: rest =>
    match pyFormatStr v ctx with
    | .error e => .error e
    | .ok fv =>
      match formatDict ctx rest with
      | .error e => .error e
      | .ok frest => .ok ((k, fv) :: frest)

/-- Python `tuple(p.format(**req_params) for p in l)`: elements formatted in
order, first failure raises. -/
def formatList (ctx : List (String × String)) :
    List String → Except PyError (List String)
  | [] => .ok []
  | s :: rest =>
    match pyFormatStr s ctx with
    | .error e => .error e
    | .ok fs =>
      match formatList ctx rest with
      | .error e => .error e
      | .ok frest => .ok (fs :: frest)

/-- The `url` entry of the `req_dict` literal:
`src.path.format(observable=value) if src.full_url else
self._BASE_URL + src.path.format(**req_params)`.  Evaluated first, as in
the source's dict literal. -/
def substUrl (prov : HttpProvider) (src : IoCLookupParams) (value : String) :
    Except PyError String :=
  if src.full_url then pyFormatStr src.path [("observable", value)]
  else
    match pyFormatStr src.path (buildCtx prov value) with
    | .error e => .error e
    | .ok p => .ok (prov.base_url ++ p)

/-- The headers block: format `src.headers` when non-empty (the initial
`req_dict["headers"]` is `\x7b\x7d`), then add the default `User-Agent`
header when none was formatted in. -/
def substHeaders (src : IoCLookupParams) (ctx : List (String × String)) :
    Except PyError (List (String × String)) :=
  match (if src.headers.isEmpty then .ok [] else formatDict ctx src.headers) with
  | .error e => .error e
  | .ok h0 =>
    .ok (if (List.lookup "User-Agent" h0).isNone then h0 ++ mpUaHeader else h0)

/-- The `params` / `data` blocks: formatted only when the template dict is
non-empty (Python truthiness of `src.params` / `src.data`), otherwise the
key is absent from `req_dict`. -/
def substOptDict (entries : List (String × String)) (ctx : List (String × String)) :
    Except PyError (Option (List (String × String))) :=
  if entries.isEmpty then .ok Option.none
  else
    match formatDict ctx entries with
    | .error e => .error e
    | .ok d => .ok (some d)

/-- The auth block: when `src.auth_type and src.auth_str` is truthy the
auth strings are formatted (first), then any auth type other than
`"HTTPBasic"` raises `NotImplementedError`. -/
def substAuth (src : IoCLookupParams) (ctx : List (String × String)) :
    Except PyError (Option (List String)) :=
  if src.auth_type ≠ "" ∧ ¬ src.auth_str.isEmpty then
    match formatList ctx src.auth_str with
    | .error e => .error e
    | .ok auth_strs =>
      if src.auth_type = "HTTPBasic" then .ok (some auth_strs)
      else .error (.notImplementedError ("Unknown auth type " ++ src.auth_type))
  else .ok Option.none

/-- The body of `_substitute_parms` after the template has been found, in
source evaluation order: url, headers, query params, body data, auth. -/
def substAfterFind (prov : HttpProvider) (src : IoCLookupParams) (value : String) :
    Except PyError (String × ReqDict) :=
  match substUrl prov src value with
  | .error e => .error e
  | .ok url =>
    match substHeaders src (buildCtx prov value) with
    | .error e => .error e
    | .ok headers =>
      match substOptDict src.params (buildCtx prov value) with
      | .error e => .error e
      | .ok q_params =>
        match substOptDict src.data (buildCtx prov value) with
        | .error e => .error e
        | .ok q_data =>
          match substAuth src (buildCtx prov value) with
          | .error e => .error e
          | .ok auth =>
            .ok (src.verb,
              { headers := headers, url := url, params := q_params,
                data := q_data, auth := auth })

/-- `HttpTIProvider._substitute_parms(value, value_type, query_type)`:
template lookup (`LookupError` if absent) followed by the staged build. -/
def substituteParms (prov : HttpProvider) (value : String) (value_type : String)
    (query_type : Option String) : Except PyError (String × ReqDict) :=
  match List.lookup (valueKey value_type query_type) prov.ioc_query_defs with
  | Option.none =>
    .error (.lookupError
      ("Provider does not support this type " ++ valueKey value_type query_type ++ "."))
  | some src => substAfterFind prov src value

/-! ### Lookup result and response classification -/

/-- Modelled from the spec: `ResultSeverity` (in `result_severity.py`,
outside the excerpt), `enum(information, warning, high)`. -/
inductive ResultSeverity where
  | information
  | warning
  | high
deriving DecidableEq, Repr

/-- Modelled from the spec: the sentinel `LookupStatus.OK.value`
(`lookup_result.py` is outside the excerpt); `status` carries either this
sentinel or a raw HTTP status code. -/
def lookupStatusOK : Int := 0

/-- Modelled from the spec: the `LookupResult` record (`lookup_result.py`
is outside the excerpt), with the fields `lookup_ioc` reads and writes. -/
structure LookupResult where
  ioc : String := ""
  ioc_type : String := ""
  safe_ioc : String := ""
  provider : String := ""
  result : Bool := false
  severity : ResultSeverity := .information
  details : PyObj := .noneVal
  raw_result : PyObj := .noneVal
  reference : Option String := Option.none
  status : Int := 0

/-- An HTTP response as `lookup_ioc` consumes it: raw status code, the
outcome of `response.json()` (`.error msg` models `JSONDecodeError`),
`response.text`, and `str(response)`. -/
structure HttpResponse where
  status_code : Int := 200
  json : Except String PyObj := .ok (.dict [])
  text : String := ""
  asStr : String := ""

/-- The Python stdlib table `http.client.responses` mapping status codes to
reason phrases (external collaborator; standard entries reproduced). -/
def httpClientResponses : List (Int × String) :=
  [(100, "Continue"), (101, "Switching Protocols"), (102, "Processing"),
   (103, "Early Hints"),
   (200, "OK"), (201, "Created"), (202, "Accepted"),
   (203, "Non-Authoritative Information"), (204, "No Content"),
   (205, "Reset Content"), (206, "Partial Content"), (207, "Multi-Status"),
   (208, "Already Reported"), (226, "IM Used"),
   (300, "Multiple Choices"), (301, "Moved Permanently"), (302, "Found"),
   (303, "See Other"), (304, "Not Modified"), (305, "Use Proxy"),
   (307, "Temporary Redirect"), (308, "Permanent Redirect"),
   (400, "Bad Request"), (401, "Unauthorized"), (402, "Payment Required"),
   (403, "Forbidden"), (404, "Not Found"), (405, "Method Not Allowed"),
   (406, "Not Acceptable"), (407, "Proxy Authentication Required"),
   (408, "Request Timeout"), (409, "Conflict"), (410, "Gone"),
   (411, "Length Required"), (412, "Precondition Failed"),
   (413, "Request Entity Too Large"), (414, "Request-URI Too Long"),
   (415, "Unsupported Media Type"), (416, "Requested Range Not Satisfiable"),
   (417, "Expectation Failed"), (418, "I\x27m a Teapot"),
   (421, "Misdirected Request"), (422, "Unprocessable Entity"),
   (423, "Locked"), (424, "Failed Dependency"), (425, "Too Early"),
   (426, "Upgrade Required"), (428, "Precondition Required"),
   (429, "Too Many Requests"), (431, "Request Header Fields Too Large"),
   (451, "Unavailable For Legal Reasons"),
   (500, "Internal Server Error"), (501, "Not Implemented"),
   (502, "Bad Gateway"), (503, "Service Unavailable"), (504, "Gateway Timeout"),
   (505, "HTTP Version Not Supported"), (506, "Variant Also Negotiates"),
   (507, "Insufficient Storage"), (508, "Loop Detected"),
   (510, "Not Extended"), (511, "Network Authentication Required")]

/-- `HttpTIProvider._response_message(status_code)`. -/
def responseMessage (status_code : Int) : String :=
  if status_code = 404 then "Not found."
  else if status_code = 401 then "Authorization failed. Check account and key details."
  else if status_code = 403 then "Request forbidden. Allowed query rate may have been exceeded."
  else ((List.lookup status_code httpClientResponses).getD "Unknown HTTP status code.")

/-- `HttpTIProvider._err_to_results(result, err)`: exception args into
`details`, type name + message + traceback into `raw_result`.  The
traceback text (`traceback.format_exc()`) is an abstract input `tb`. -/
def errToResults (result : LookupResult) (e : PyError) (tb : String) : LookupResult :=
  { result with
    details := e.argsObj,
    raw_result := .str (e.typeName ++ "\n" ++ e.toStr ++ "\n" ++ tb) }

/-- The `except (LookupError, JSONDecodeError, NotImplementedError,
ConnectionError)` handler body of `lookup_ioc`: `_err_to_results`, then,
unless the error is a `LookupError`, `reference` is set to the attempted
url (`None` when `req_params` was never assigned). -/
def outerHandle (result : LookupResult) (e : PyError) (tb : String)
    (url : Option String) : LookupResult :=
  let r := errToResults result e tb
  if e.isLookupError then r else { r with reference := url }

/-- The `except JSONDecodeError` recovery inside the 200 branch: parse
problem message (with the response text) as `raw_result`, `result=False`,
severity information, empty details; the subsequent lines of the 200
branch then run `set_severity` and set `status` to OK. -/
def jsonFailResult (result : LookupResult) (response : HttpResponse) : LookupResult :=
  { result with
    raw_result := .str
      ("There was a problem parsing results from this lookup:\n" ++
        String.mk (List.replicate 40 ' ') ++ response.text),
    result := false,
    severity := .information,
    details := .dict [],
    status := lookupStatusOK }

/-- `HttpTIProvider.lookup_ioc` (single uncached call).  External
collaborators are explicit inputs: `parse_results` (the abstract method,
which may itself raise), `httpGet` (the transport; `.error` = a raised
exception), `tb` (traceback text), and `check_result` (the `LookupResult`
returned by `_check_ioc_type`, in `ti_provider_base.py` outside the
excerpt).  A `.error` outcome models an exception escaping `lookup_ioc`. -/
def lookupIoc (prov : HttpProvider)
    (parse_results : LookupResult → Except PyError (Bool × ResultSeverity × PyObj))
    (httpGet : ReqDict → Except PyError HttpResponse)
    (tb : String)
    (check_result : LookupResult) (query_type : Option String)
    (provider_name : String) : Except PyError LookupResult :=
  let result := { check_result with provider := provider_name }
  if result.status ≠ lookupStatusOK then .ok result
  else
    match substituteParms prov result.safe_ioc result.ioc_type query_type with
    | .error e =>
      if e.isCaught then .ok (outerHandle result e tb Option.none) else .error e
    | .ok (verb, req_params) =>
      if verb = "GET" then
        match httpGet req_params with
        | .error e =>
          if e.isCaught then .ok (outerHandle result e tb (some req_params.url))
          else .error e
        | .ok response =>
          let result := { result with
            status := response.status_code, reference := some req_params.url }
          if response.status_code = 200 then
            match response.json with
            | .error _ => .ok (jsonFailResult result response)
            | .ok jobj =>
              let result2 := { result with raw_result := jobj }
              match parse_results result2 with
              | .error e =>
                match e with
                | .jsonDecodeError _ => .ok (jsonFailResult result2 response)
                | _ =>
                  if e.isCaught then
                    .ok (outerHandle result2 e tb (some req_params.url))
                  else .error e
              | .ok (isHit, sev, det) =>
                .ok { result2 with
                  result := isHit, severity := sev, details := det,
                  status := lookupStatusOK }
          else
            .ok { result with
              raw_result := .str response.asStr, result := false,
              details := .str (responseMessage response.status_code) }
      else
        .ok (outerHandle result
          (.notImplementedError ("Unsupported verb " ++ verb)) tb
          (some req_params.url))

/-! ### The `functools.lru_cache(maxsize=256)` wrapper on `lookup_ioc`

The cache is modelled as an association list in recency order (most
recently used first).  A hit moves the entry to the front and returns the
stored value without recomputing; a miss computes, and if the call returns
normally the value is inserted at the front, discarding the least recently
used entry beyond `maxsize`.  A raising call caches nothing, as in
CPython. -/

/-- First-match association lookup in the recency list. -/
def lruGet {K V : Type} [DecidableEq K] (k : K) : List (K × V) → Option V
  | [] => Option.none
  | (k', v) :: rest => if k' = k then some v else lruGet k rest

/-- Remove the entry for `k` from the recency list. -/
def lruDrop {K V : Type} [DecidableEq K] (k : K) (cache : List (K × V)) : List (K × V) :=
  cache.filter (fun kv => decide (kv.1 ≠ k))

/-- One call through an `lru_cache(maxsize)`-wrapped fallible function.
Returns the call outcome, the new cache, and whether the underlying
function was actually invoked. -/
def lruCallExc {K V E : Type} [DecidableEq K] (maxsize : Nat)
    (f : K → Except E V) (k : K) (cache : List (K × V)) :
    Except E V × List (K × V) × Bool :=
  match lruGet k cache with
  | some v => (.ok v, (k, v) :: lruDrop k cache, false)
  | Option.none =>
    match f k with
    | .error e => (.error e, cache, true)
    | .ok v => (.ok v, List.take maxsize ((k, v) :: cache), true)

/-- The memoization key of `lookup_ioc`: the argument tuple
`(ioc, ioc_type, query_type, kwargs)` (for a fixed provider instance). -/
structure LookupKey where
  ioc : String := ""
  ioc_type : Option String := Option.none
  query_type : Option String := Option.none
  kwargs : List (String × String) := []
deriving DecidableEq

/-- One uncached `lookup_ioc` call for a given argument tuple.
`checkOf` models `_check_ioc_type` on those arguments and `className` the
fallback provider name (`self.__class__.__name__`). -/
def lookupIocUncached (prov : HttpProvider)
    (parse_results : LookupResult → Except PyError (Bool × ResultSeverity × PyObj))
    (httpGet : ReqDict → Except PyError HttpResponse) (tb : String)
    (checkOf : LookupKey → LookupResult) (className : String)
    (k : LookupKey) : Except PyError LookupResult :=
  lookupIoc prov parse_results httpGet tb (checkOf k) k.query_type
    ((List.lookup "provider_name" k.kwargs).getD className)

/-- `lookup_ioc` as decorated with `@lru_cache(maxsize=256)`. -/
def lookupIocCached (prov : HttpProvider)
    (parse_results : LookupResult → Except PyError (Bool × ResultSeverity × PyObj))
    (httpGet : ReqDict → Except PyError HttpResponse) (tb : String)
    (checkOf : LookupKey → LookupResult) (className : String)
    (k : LookupKey) (cache : List (LookupKey × LookupResult)) :
    Except PyError LookupResult × List (LookupKey × LookupResult) × Bool :=
  lruCallExc 256 (lookupIocUncached prov parse_results httpGet tb checkOf className)
    k cache

/-! ### Azure credential chain cache (`azure_auth_core.py`) -/

/-- `AzCredentials`, the named tuple of legacy (ADAL) and modern (MSAL)
credential handles.  The handles themselves are external SDK objects,
modelled as plain numeric tags. -/
structure AzCredentials where
  legacy : Nat := 0
  modern : Nat := 0
deriving DecidableEq

/-- The keyword arguments of `_AzCachedConnect.connect` that its cache
logic inspects. -/
structure ConnectKwargs where
  cloud : Option String := Option.none
  region : Option String := Option.none

/-- The state of the `_AzCachedConnect` singleton: the cached pair and
`cred_cloud`, which `__init__` sets to the current configured cloud and
which `connect` never updates. -/
structure AzCachedState where
  az_credentials : Option AzCredentials := Option.none
  cred_cloud : String := "global"

/-- `_AzCachedConnect.connect`.  `core` models `_az_connect_core` (the
full chain resolution), `tokenExpiresOn` models
`modern.get_token(token_uri).expires_on`, `now` the value of
`datetime.utcnow()` as a timestamp, and `currentCloud` the configured
cloud (`AzureCloudConfig().cloud`).  Returns the credentials, the new
state, and how many times the chain was re-resolved during the call. -/
def cachedConnect (core : ConnectKwargs → AzCredentials)
    (tokenExpiresOn : AzCredentials → Int) (now : Int) (currentCloud : String)
    (kwargs : ConnectKwargs) (st : AzCachedState) :
    AzCredentials × AzCachedState × Nat :=
  match st.az_credentials with
  | Option.none =>
    let c := core kwargs
    (c, { st with az_credentials := some c }, 1)
  | some creds =>
    let expired := tokenExpiresOn creds ≤ now
    let creds1 := if expired then core kwargs else creds
    let n1 := if expired then 1 else 0
    let requested := kwargs.cloud.getD (kwargs.region.getD currentCloud)
    let changed := st.cred_cloud ≠ requested
    let creds2 := if changed then core kwargs else creds1
    let n2 := if changed then n1 + 1 else n1
    (creds2, { st with az_credentials := some creds2 }, n2)

/-- The module-global `_EXCLUDED_AUTH` dict, initially all `True`. -/
def excludedAuthInit : List (String × Bool) :=
  [("cli", true), ("env", true), ("msi", true), ("vscode", true),
   ("powershell", true), ("interactive", true), ("cache", true)]

/-- Set the value for key `k` in an association list (in place, keeping
order), as Python dict item assignment for an existing key. -/
def setKey (k : String) (b : Bool) : List (String × Bool) → List (String × Bool)
  | [] => []
  | (k', v) :: rest => if k' = k then (k', b) :: rest else (k', v) :: setKey k b rest

/-- The loop `for method in auth_methods: if method in _EXCLUDED_AUTH:
_EXCLUDED_AUTH[method] = False`. -/
def applyAuthMethods (excl : List (String × Bool)) (methods : List String) :
    List (String × Bool) :=
  methods.foldl
    (fun acc m => if (List.lookup m acc).isSome then setKey m false acc else acc) excl

/-- The `exclude_*` keyword arguments passed to `DefaultAzureCredential`
(the external multi-source chain). -/
structure DefaultAzureCredentialArgs where
  exclude_cli : Bool := false
  exclude_environment : Bool := false
  exclude_managed_identity : Bool := false
  exclude_powershell : Bool := false
  exclude_visual_studio_code : Bool := false
  exclude_shared_token_cache : Bool := false
  exclude_interactive_browser : Bool := false
deriving DecidableEq

/-- The credential-exclusion logic of `_az_connect_core` (lines 211-231):
with a truthy `auth_methods` list the module-global `_EXCLUDED_AUTH` is
mutated (entries named in the list set to `False`) and its values passed
as the `exclude_*` arguments; otherwise `DefaultAzureCredential` is built
with its library defaults plus an enabled interactive browser credential.
Returns the constructed arguments and the new module-global state. -/
def azConnectCoreCreds (auth_methods : Option (List String))
    (excl : List (String × Bool)) :
    DefaultAzureCredentialArgs × List (String × Bool) :=
  match auth_methods with
  | some ms =>
    if ms.isEmpty then ({}, excl)
    else
      let e := applyAuthMethods excl ms
      ({ exclude_cli := (List.lookup "cli" e).getD true,
         exclude_environment := (List.lookup "env" e).getD true,
         exclude_managed_identity := (List.lookup "msi" e).getD true,
         exclude_powershell := (List.lookup "powershell" e).getD true,
         exclude_visual_studio_code := (List.lookup "vscode" e).getD true,
         exclude_shared_token_cache := (List.lookup "cache" e).getD true,
         exclude_interactive_browser := (List.lookup "interactive" e).getD true }, e)
  | Option.none => ({}, excl)

/-! ### Formatting utilities (`common/utility/format.py`) -/

/-- Python `str.isspace` characters relevant to `str.strip()` (ASCII
whitespace; the exotic Unicode spaces do not matter for the properties
proved here, which only use emptiness of the stripped string). -/
def pyIsSpace (c : Char) : Bool :=
  c = ' ' || c = '\t' || c = '\n' || c = '\x0d' || c = '\x0b' || c = '\x0c'

/-- Python `s.strip()` on a character list. -/
def pyStrip (l : List Char) : List Char :=
  ((l.dropWhile pyIsSpace).reverse.dropWhile pyIsSpace).reverse

/-- `is_not_empty(test_object)` for a string-or-None argument: truthy and,
for strings, with a non-empty `strip()`. -/
def is_not_empty : Option String → Bool
  | Option.none => false
  | some s => decide (s ≠ "") && !(pyStrip s.data).isEmpty

/-- Python `s.replace(pat, rep)`: left-to-right, non-overlapping.  Both
call sites in `format.py` use a non-empty `pat`; an empty `pat` is treated
as matching nowhere. -/
def pyReplace (s pat rep : List Char) : List Char :=
  match s with
  | [] => []
  | c :: rest =>
    if pat ≠ [] ∧ pat.isPrefixOf (c :: rest) then
      rep ++ pyReplace ((c :: rest).drop pat.length) pat rep
    else c :: pyReplace rest pat rep
termination_by s.length
decreasing_by
  · simp only [List.length_drop]
    have hne : pat ≠ [] := by
      rename_i h
      exact h.1
    have : 1 ≤ pat.length := by
      cases pat with
      | nil => exact absurd rfl hne
      | cons a t => simp
    simp only [List.length_cons]
    omega
  · simp

/-- The backslash character. -/
def bsChar : Char := '\\'

/-- `escape_windows_path(str_path)`:
`str_path.replace("\\", "\\\\") if is_not_empty(str_path) else str_path`. -/
def escape_windows_path (str_path : Option String) : Option String :=
  if is_not_empty str_path then
    str_path.map (fun s => String.mk (pyReplace s.data [bsChar] [bsChar, bsChar]))
  else str_path

/-- `unescape_windows_path(str_path)`:
`str_path.replace("\\\\", "\\") if is_not_empty(str_path) else str_path`. -/
def unescape_windows_path (str_path : Option String) : Option String :=
  if is_not_empty str_path then
    str_path.map (fun s => String.mk (pyReplace s.data [bsChar, bsChar] [bsChar]))
  else str_path

/-- Structural form of `replace("\\", "\\\\")`: every backslash doubled. -/
def pyEscapeBS : List Char → List Char
  | [] => []
  | c :: rest =>
    if c = bsChar then bsChar :: bsChar :: pyEscapeBS rest
    else c :: pyEscapeBS rest

/-- Structural form of `replace("\\\\", "\\")`: every pair of consecutive
backslashes collapsed to one, scanning left to right. -/
def pyUnescapeBS : List Char → List Char
  | [] => []
  | [c] => [c]
  | c1 :: c2 :: rest =>
    if c1 = bsChar ∧ c2 = bsChar then bsChar :: pyUnescapeBS rest
    else c1 :: pyUnescapeBS (c2 :: rest)

/-- `re.sub("[^a-zA-Z0-9_]", "_", s)`: every character outside
`[a-zA-Z0-9_]` replaced by an underscore.  `Char.isAlpha`/`Char.isDigit`
are the ASCII classes `[a-zA-Z]`/`[0-9]`. -/
def pySubNonWord (s : String) : String :=
  String.mk (s.data.map (fun c => if c.isAlpha ∨ c.isDigit ∨ c = '_' then c else '_'))

/-- The tail of `valid_pyname` after the substitution: the `identifier[0]`
read (an `IndexError`, modelled as `none`, on an empty string) and the
`n_` prefix for a leading digit. -/
def vpTail (id2 : String) : Option String :=
  match id2.data with
  | [] => Option.none
  | c :: _ => some (if c.isDigit then "n_" ++ id2 else id2)

/-- `valid_pyname(identifier)`.  The set `dir(builtins)` is an external
input `builtinNames`; a builtin name gets the `_bi` suffix before the
substitution. -/
def valid_pyname (builtinNames : List String) (identifier : String) : Option String :=
  let id1 := if identifier ∈ builtinNames then identifier ++ "_bi" else identifier
  vpTail (pySubNonWord id1)

/-! ### Data used by the claim witnesses and counterexamples -/

/-- Witness data for C2: a provider with one registered ipv4 template. -/
def w2prov : HttpProvider :=
  { base_url := "https://api.example"
    ioc_query_defs := [("ipv4", { path := "/ip/\x7bobservable\x7d" })]
    request_params := [] }

/-- Witness data for C2: a validated lookup result from `_check_ioc_type`. -/
def w2cr : LookupResult :=
  { ioc := "1.2.3.4", ioc_type := "ipv4", safe_ioc := "1.2.3.4", status := 0 }

/-- Witness data for C2: an HTTP 404 response. -/
def w2resp : HttpResponse :=
  { status_code := 404, json := .error "not json", text := "", asStr := "<Response [404 Not Found]>" }

/-- Witness data for C2: the request built for the template of `w2prov`. -/
def w2rp : ReqDict :=
  { headers := mpUaHeader, url := "https://api.example/ip/1.2.3.4" }

/-- Witness data for C3: a provider with one registered ipv4 template. -/
def w3prov : HttpProvider :=
  { base_url := "https://api.example"
    ioc_query_defs := [("ipv4", { path := "/ip/\x7bobservable\x7d" })]
    request_params := [] }

/-- Witness data for C3: a validated lookup result from `_check_ioc_type`. -/
def w3cr : LookupResult :=
  { ioc := "1.2.3.4", ioc_type := "ipv4", safe_ioc := "1.2.3.4", status := 0 }

/-- Witness data for C3: an HTTP 200 response whose body is not JSON. -/
def w3resp : HttpResponse :=
  { status_code := 200, json := .error "Expecting value: line 1 column 1 (char 0)"
    text := "<html>oops</html>", asStr := "<Response [200 OK]>" }

/-- Worked example for C5: the provider of the spec scenario, with base
URL `"https://api.example/"` (note the trailing slash) and template path
`"/ip/\x7bobservable\x7d"`. -/
def exampleProvider : HttpProvider :=
  { base_url := "https://api.example/"
    ioc_query_defs := [("ipv4", { path := "/ip/\x7bobservable\x7d" })]
    request_params := [] }

/-- Witness/counterexample data for C7: a chain resolver that tags the
produced pair with a run-independent value; what matters is how often it
is invoked and with which kwargs. -/
def cx7core : ConnectKwargs → AzCredentials := fun _ => { legacy := 7, modern := 7 }

/-- Witness data for C6: a `_check_ioc_type` stub returning a non-OK
status (the lookup then returns early with a small result). -/
def w6check : LookupKey → LookupResult := fun _ => { status := 1 }

/-- Witness data for C6: the result of the uncached lookup at `w6check`. -/
def w6res : LookupResult := { provider := "X", status := 1 }

/-- Witness data for C6: a trivial `parse_results` stub. -/
def w6parse : LookupResult → Except PyError (Bool × ResultSeverity × PyObj) :=
  fun _ => .ok (false, .information, .noneVal)

/-- Witness data for C6: a transport stub. -/
def w6http : ReqDict → Except PyError HttpResponse :=
  fun _ => .error (.connectionError "x")

/-- Witness data for C6: a full two-entry cache without the probed key. -/
def w6cache2 : List (LookupKey × LookupResult) :=
  [({ ioc := "a" }, w6res), ({ ioc := "b" }, w6res)]

/-- A format string is well-formed for keyword-only formatting. -/
def wfStr (s : String) : Bool := (namedPlaceholders s).isSome

/-- Some named placeholder of `s` has no value in `ctx`. -/
def strMissing (ctx : List (String × String)) (s : String) : Bool :=
  match namedPlaceholders s with
  | some ns => ns.any (fun n => (List.lookup n ctx).isNone)
  | Option.none => false

/-- Every template string of `src` is well-formed for keyword formatting. -/
def srcWellFormed (src : IoCLookupParams) : Bool :=
  wfStr src.path && src.headers.all (fun kv => wfStr kv.2) &&
  src.params.all (fun kv => wfStr kv.2) && src.data.all (fun kv => wfStr kv.2) &&
  src.auth_str.all wfStr

/-- Some string that `_substitute_parms` actually formats for `src` has a
placeholder with no value in its substitution context: the path (against
the observable-only context when `fullUrl`, the full context otherwise),
a header/query/body value, or — when the auth block runs — an auth
string. -/
def srcCtxMissing (prov : HttpProvider) (value : String) (src : IoCLookupParams) : Bool :=
  strMissing (if src.full_url then [("observable", value)] else buildCtx prov value)
    src.path ||
  src.headers.any (fun kv => strMissing (buildCtx prov value) kv.2) ||
  src.params.any (fun kv => strMissing (buildCtx prov value) kv.2) ||
  src.data.any (fun kv => strMissing (buildCtx prov value) kv.2) ||
  ((decide (src.auth_type ≠ "") && !src.auth_str.isEmpty) &&
    src.auth_str.any (strMissing (buildCtx prov value)))

/-- Witness data for C4: a template whose path requires a placeholder that
the substitution context does not supply. -/
def w4prov : HttpProvider :=
  { base_url := "https://api.example"
    ioc_query_defs := [("ipv4", { path := "/x/\x7bmissing_key\x7d" })]
    request_params := [] }

/-- Witness data for C1: a validated `_check_ioc_type` result for a
provider with no registered templates (the lookup then fails with the
no-template `LookupError`, which is captured). -/
def w1cr : LookupResult :=
  { ioc := "1.2.3.4", ioc_type := "ipv4", safe_ioc := "1.2.3.4", status := 0 }

/-- Witness data for C1: a trivial `parse_results` stub. -/
def w1parse : LookupResult → Except PyError (Bool × ResultSeverity × PyObj) :=
  fun _ => .ok (false, .information, .noneVal)

/-- Witness data for C1: a transport stub failing with `ConnectionError`. -/
def w1http : ReqDict → Except PyError HttpResponse :=
  fun _ => .error (.connectionError "boom")

/-! ## Theorems -/

/-! ### C9 helper lemmas: the two `str.replace` calls of `format.py` -/

theorem pyReplace_esc (l : List Char) :
    pyReplace l [bsChar] [bsChar, bsChar] = pyEscapeBS l := by
  induction l with
  | nil => rw [pyReplace.eq_def]; rfl
  | cons c rest ih =>
    rw [pyReplace.eq_def]
    simp only [pyEscapeBS, List.isPrefixOf, List.drop]
    by_cases hc : c = bsChar
    · subst hc
      simp [ih]
    · simp [hc, Ne.symm hc, ih]

theorem pyReplace_unesc (l : List Char) :
    pyReplace l [bsChar, bsChar] [bsChar] = pyUnescapeBS l := by
  induction l using pyUnescapeBS.induct with
  | case1 => rw [pyReplace.eq_def]; rfl
  | case2 c =>
    rw [pyReplace.eq_def]
    simp [pyUnescapeBS, List.isPrefixOf, pyReplace]
  | case3 c1 c2 rest h ih =>
    obtain ⟨h1, h2⟩ := h
    subst h1; subst h2
    rw [pyReplace.eq_def]
    simp [pyUnescapeBS, List.isPrefixOf, List.drop, ih]
  | case4 c1 c2 rest h ih =>
    rw [pyReplace.eq_def]
    have : ¬ ([bsChar, bsChar].isPrefixOf (c1 :: c2 :: rest) = true) := by
      simp only [List.isPrefixOf, Bool.and_eq_true, beq_iff_eq]
      intro hpre
      exact h ⟨hpre.1.symm, hpre.2.1.symm⟩
    simp [pyUnescapeBS, h, this, ih]

theorem pyEscapeBS_eq_nil {l : List Char} (h : pyEscapeBS l = []) : l = [] := by
  cases l with
  | nil => rfl
  | cons c rest =>
    simp only [pyEscapeBS] at h
    split at h <;> simp at h

theorem unesc_esc (l : List Char) : pyUnescapeBS (pyEscapeBS l) = l := by
  induction l with
  | nil => rfl
  | cons c rest ih =>
    by_cases hc : c = bsChar
    · subst hc
      simp only [pyEscapeBS, if_pos rfl, pyUnescapeBS, ih]
      simp
    · simp only [pyEscapeBS, if_neg hc]
      cases he : pyEscapeBS rest with
      | nil =>
        have : rest = [] := pyEscapeBS_eq_nil he
        subst this
        simp [pyUnescapeBS]
      | cons d t =>
        rw [show pyUnescapeBS (c :: d :: t) = c :: pyUnescapeBS (d :: t) from
          if_neg (fun hh => hc hh.1)]
        rw [← he, ih]

theorem mem_pyEscapeBS_of_mem {c : Char} {l : List Char} (h : c ∈ l) :
    c ∈ pyEscapeBS l := by
  induction l with
  | nil => cases h
  | cons d rest ih =>
    rcases List.mem_cons.1 h with h1 | h2
    · subst h1
      by_cases hd : c = bsChar
      · simp [pyEscapeBS, hd]
      · simp [pyEscapeBS, hd]
    · by_cases hd : d = bsChar <;> simp [pyEscapeBS, hd, ih h2]

theorem dropWhile_all_iff {p : Char → Bool} (l : List Char) :
    (∀ x ∈ l.dropWhile p, p x) ↔ (∀ x ∈ l, p x) := by
  constructor
  · intro h x hx
    rw [← List.takeWhile_append_dropWhile (p := p) (l := l)] at hx
    rcases List.mem_append.1 hx with h1 | h2
    · exact List.mem_takeWhile_imp h1
    · exact h x h2
  · intro h x hx
    exact h x ((List.dropWhile_sublist (l := l) (p := p)).subset hx)

theorem pyStrip_eq_nil_iff (l : List Char) :
    pyStrip l = [] ↔ ∀ c ∈ l, pyIsSpace c := by
  unfold pyStrip
  rw [List.reverse_eq_nil_iff, List.dropWhile_eq_nil_iff]
  constructor
  · intro h c hc
    exact (dropWhile_all_iff l).1 (fun x hx => h x (List.mem_reverse.2 hx)) c hc
  · intro h c hc
    exact (dropWhile_all_iff l).2 h c (List.mem_reverse.1 hc)

theorem pyStrip_esc_ne_nil {l : List Char} (h : pyStrip l ≠ []) :
    pyStrip (pyEscapeBS l) ≠ [] := by
  intro hc
  apply h
  rw [pyStrip_eq_nil_iff] at hc ⊢
  intro c hcl
  exact hc c (mem_pyEscapeBS_of_mem hcl)

theorem isEmpty_false_ne_nil {l : List Char} (h : l.isEmpty = false) : l ≠ [] := by
  intro hl
  subst hl
  simp at h

theorem ne_nil_isEmpty_false {l : List Char} (h : l ≠ []) : l.isEmpty = false := by
  cases l with
  | nil => exact absurd rfl h
  | cons c t => rfl

theorem is_not_empty_escape {s : String} (h : is_not_empty (some s) = true) :
    is_not_empty (some (String.mk (pyEscapeBS s.data))) = true := by
  simp only [is_not_empty, Bool.and_eq_true, decide_eq_true_eq,
    Bool.not_eq_true'] at h ⊢
  obtain ⟨h1, h2⟩ := h
  have h2' : pyStrip s.data ≠ [] := isEmpty_false_ne_nil h2
  refine ⟨?_, ne_nil_isEmpty_false (pyStrip_esc_ne_nil h2')⟩
  intro hmk
  apply h1
  have hdata : pyEscapeBS s.data = [] := congrArg String.data hmk
  have hd : s.data = [] := pyEscapeBS_eq_nil hdata
  exact String.ext hd

/-- C9: round trip — for every string (or `None`) `p`,
`unescape_windows_path(escape_windows_path(p)) = p`; `escape_windows_path`
doubles every backslash and `unescape_windows_path` collapses every
doubled backslash back to one, and both return `None` and empty inputs
unchanged. -/
theorem windows_path_roundtrip :
    (∀ p : Option String, unescape_windows_path (escape_windows_path p) = p) ∧
    escape_windows_path Option.none = Option.none ∧
    unescape_windows_path Option.none = Option.none ∧
    escape_windows_path (some "") = some "" ∧
    unescape_windows_path (some "") = some "" := by
  refine ⟨?_, rfl, rfl, rfl, rfl⟩
  intro p
  cases p with
  | none => rfl
  | some s =>
    by_cases h : is_not_empty (some s) = true
    · unfold escape_windows_path
      rw [if_pos h]
      simp only [Option.map_some', pyReplace_esc]
      have h2 := is_not_empty_escape h
      unfold unescape_windows_path
      rw [if_pos h2]
      simp only [Option.map_some']
      congr 1
      rw [pyReplace_unesc, unesc_esc]
    · unfold escape_windows_path unescape_windows_path
      rw [if_neg h, if_neg h]

/-! ### C10: totality of `valid_pyname` -/

/-- C10: `valid_pyname` is total only on non-empty input — for every
non-empty input string it returns a string of ASCII letters, digits and
underscores that does not start with a digit; on the empty string the
`identifier[0]` read is out of range and the function fails instead of
returning a value.  `builtinNames` models `dir(builtins)`, which does not
contain the empty string. -/
theorem pySubNonWord_data (s : String) :
    (pySubNonWord s).data =
      s.data.map (fun c => if c.isAlpha ∨ c.isDigit ∨ c = '_' then c else '_') := rfl

theorem pySubNonWord_word {s : String} {c : Char} (hc : c ∈ (pySubNonWord s).data) :
    c.isAlpha ∨ c.isDigit ∨ c = '_' := by
  rw [pySubNonWord_data] at hc
  rcases List.mem_map.1 hc with ⟨x, _, hx⟩
  have hx' : (if x.isAlpha ∨ x.isDigit ∨ x = '_' then x else '_') = c := hx
  by_cases hcase : x.isAlpha = true ∨ x.isDigit = true ∨ x = '_'
  · rw [if_pos hcase] at hx'
    rw [← hx']
    exact hcase
  · rw [if_neg hcase] at hx'
    right; right
    exact hx'.symm

theorem vpTail_sub (t : String) (ht : t.data ≠ []) :
    ∃ r : String, vpTail (pySubNonWord t) = some r ∧ r ≠ "" ∧
      (∀ c ∈ r.data, c.isAlpha ∨ c.isDigit ∨ c = '_') ∧
      (∀ c cs, r.data = c :: cs → ¬ (c.isDigit = true)) := by
  obtain ⟨c0, cs0, hm⟩ : ∃ c0 cs0, (pySubNonWord t).data = c0 :: cs0 := by
    cases hq : (pySubNonWord t).data with
    | nil =>
      rw [pySubNonWord_data] at hq
      exact absurd (List.map_eq_nil_iff.1 hq) ht
    | cons a b => exact ⟨a, b, rfl⟩
  have hgoal : vpTail (pySubNonWord t) =
      some (if c0.isDigit then "n_" ++ pySubNonWord t else pySubNonWord t) := by
    unfold vpTail
    rw [hm]
  rw [hgoal]
  clear hgoal
  · have hword : ∀ c ∈ (pySubNonWord t).data, c.isAlpha ∨ c.isDigit ∨ c = '_' :=
      fun c hc => pySubNonWord_word hc
    by_cases hdig : c0.isDigit = true
    · rw [if_pos hdig]
      refine ⟨_, rfl, ?_, ?_, ?_⟩
      · intro hh
        have h2 := congrArg String.data hh
        rw [String.data_append] at h2
        cases h2
      · intro c hc
        rw [String.data_append] at hc
        rcases List.mem_append.1 hc with h1 | h2
        · rcases List.mem_cons.1 h1 with h1 | h1
          · subst h1; left; decide
          · rcases List.mem_cons.1 h1 with h1 | h1
            · subst h1; right; right; rfl
            · cases h1
        · exact hword c h2
      · intro c cs hcs
        rw [String.data_append] at hcs
        have hcn : c = 'n' := (List.cons.injEq _ _ _ _ ▸ hcs).1.symm ▸ rfl
        rw [hcn]
        decide
    · rw [if_neg hdig]
      refine ⟨_, rfl, ?_, ?_, ?_⟩
      · intro hh
        have h2 := congrArg String.data hh
        rw [hm] at h2
        cases h2
      · exact hword
      · intro c cs hcs
        rw [hm] at hcs
        injection hcs with h1 h2
        rw [← h1]
        exact hdig

theorem valid_pyname_totality (builtinNames : List String)
    (hb : "" ∉ builtinNames) :
    valid_pyname builtinNames "" = Option.none ∧
    ∀ s : String, s ≠ "" → ∃ r : String,
      valid_pyname builtinNames s = some r ∧ r ≠ "" ∧
      (∀ c ∈ r.data, c.isAlpha ∨ c.isDigit ∨ c = '_') ∧
      (∀ c cs, r.data = c :: cs → ¬ (c.isDigit = true)) := by
  constructor
  · unfold valid_pyname
    rw [if_neg hb]
    rfl
  · intro s hs
    have hdat : s.data ≠ [] := fun hd => hs (String.ext hd)
    unfold valid_pyname
    by_cases hmem : s ∈ builtinNames
    · rw [if_pos hmem]
      apply vpTail_sub
      rw [String.data_append]
      intro hh
      exact hdat (List.append_eq_nil.1 hh).1
    · rw [if_neg hmem]
      exact vpTail_sub s hdat

/-- C10 witness: concrete evaluations of `valid_pyname` through
`valid_pyname_totality` at `dir(builtins)`-fragment `["print"]`, the empty
string, and the non-empty string `"9a-b"`. -/
theorem valid_pyname_totality_witness :
    valid_pyname ["print"] "" = Option.none ∧
    (∃ r : String, valid_pyname ["print"] "9a-b" = some r ∧ r ≠ "" ∧
      (∀ c ∈ r.data, c.isAlpha ∨ c.isDigit ∨ c = '_') ∧
      (∀ c cs, r.data = c :: cs → ¬ (c.isDigit = true))) := by
  have h := valid_pyname_totality ["print"] (by decide)
  exact ⟨h.1, h.2 "9a-b" (by decide)⟩

/-! ### C2 / C3: response classification of `lookup_ioc` -/

/-- C2: for every HTTP response with status other than 200, the lookup sets
`result=false`, `status` to the raw HTTP status code, `rawResult` to the
stringified response, and `details` to the `_response_message` text:
"Not found." for 404, the authorization message for 401, the rate message
for 403, and the `http.client.responses` reason phrase, defaulting to
"Unknown HTTP status code.", for every other status. -/
theorem lookup_ioc_non200 (prov : HttpProvider)
    (parse_results : LookupResult → Except PyError (Bool × ResultSeverity × PyObj))
    (httpGet : ReqDict → Except PyError HttpResponse) (tb : String)
    (cr : LookupResult) (qt : Option String) (pn : String)
    (rp : ReqDict) (resp : HttpResponse)
    (hok : cr.status = lookupStatusOK)
    (hs : substituteParms prov cr.safe_ioc cr.ioc_type qt = .ok ("GET", rp))
    (hh : httpGet rp = .ok resp)
    (hn : resp.status_code ≠ 200) :
    lookupIoc prov parse_results httpGet tb cr qt pn =
      .ok { cr with
            provider := pn
            status := resp.status_code
            reference := some rp.url
            raw_result := .str resp.asStr
            result := false
            details := .str (responseMessage resp.status_code) } ∧
    responseMessage 404 = "Not found." ∧
    responseMessage 401 = "Authorization failed. Check account and key details." ∧
    responseMessage 403 = "Request forbidden. Allowed query rate may have been exceeded." ∧
    (∀ c : Int, c ≠ 404 → c ≠ 401 → c ≠ 403 →
      responseMessage c =
        (List.lookup c httpClientResponses).getD "Unknown HTTP status code.") := by
  refine ⟨?_, rfl, rfl, rfl, ?_⟩
  · unfold lookupIoc
    simp only [hok, hs, hh, hn]
    simp [hok, hn]
  · intro c h4 h1 h3
    unfold responseMessage
    rw [if_neg h4, if_neg h1, if_neg h3]

/-- C2 witness: `lookup_ioc_non200` applied at an HTTP 404 response:
`result=False`, `details="Not found."`, `status=404`. -/
theorem lookup_ioc_non200_witness :
    lookupIoc w2prov (fun _ => .ok (false, .information, .noneVal))
      (fun _ => .ok w2resp) "TB" w2cr Option.none "Prov" =
      .ok { w2cr with
            provider := "Prov"
            status := 404
            reference := some "https://api.example/ip/1.2.3.4"
            raw_result := .str "<Response [404 Not Found]>"
            result := false
            details := .str "Not found." } :=
  (lookup_ioc_non200 w2prov (fun _ => .ok (false, .information, .noneVal))
    (fun _ => .ok w2resp) "TB" w2cr Option.none "Prov" w2rp w2resp
    rfl rfl rfl (by decide)).1

/-- C3: for every HTTP 200 response whose body is not valid JSON, the
lookup recovers without propagating an error: `result=false`, severity
information, `details` an empty dict, `rawResult` the human-readable
parse-failure message including the response text, and `status` the OK
sentinel. -/
theorem lookup_ioc_json_decode_recovery (prov : HttpProvider)
    (parse_results : LookupResult → Except PyError (Bool × ResultSeverity × PyObj))
    (httpGet : ReqDict → Except PyError HttpResponse) (tb : String)
    (cr : LookupResult) (qt : Option String) (pn : String)
    (rp : ReqDict) (resp : HttpResponse) (jmsg : String)
    (hok : cr.status = lookupStatusOK)
    (hs : substituteParms prov cr.safe_ioc cr.ioc_type qt = .ok ("GET", rp))
    (hh : httpGet rp = .ok resp)
    (h200 : resp.status_code = 200)
    (hj : resp.json = .error jmsg) :
    lookupIoc prov parse_results httpGet tb cr qt pn =
      .ok { cr with
            provider := pn
            status := lookupStatusOK
            reference := some rp.url
            raw_result := .str
              ("There was a problem parsing results from this lookup:\n" ++
                String.mk (List.replicate 40 ' ') ++ resp.text)
            result := false
            severity := .information
            details := .dict [] } := by
  unfold lookupIoc
  simp only [hok, hs, hh, h200, hj]
  simp [jsonFailResult, lookupStatusOK]

/-- C3 witness: `lookup_ioc_json_decode_recovery` applied at an HTTP 200
response with an invalid JSON body. -/
theorem lookup_ioc_json_decode_recovery_witness :
    lookupIoc w3prov (fun _ => .ok (true, .high, .noneVal))
      (fun _ => .ok w3resp) "TB" w3cr Option.none "Prov" =
      .ok { w3cr with
            provider := "Prov"
            status := lookupStatusOK
            reference := some "https://api.example/ip/1.2.3.4"
            raw_result := .str
              ("There was a problem parsing results from this lookup:\n" ++
                String.mk (List.replicate 40 ' ') ++ "<html>oops</html>")
            result := false
            severity := .information
            details := .dict [] } :=
  lookup_ioc_json_decode_recovery w3prov (fun _ => .ok (true, .high, .noneVal))
    (fun _ => .ok w3resp) "TB" w3cr Option.none "Prov"
    { headers := mpUaHeader, url := "https://api.example/ip/1.2.3.4" } w3resp
    "Expecting value: line 1 column 1 (char 0)" rfl rfl rfl rfl rfl

/-! ### C5: URL resolution of the build step -/

/-- C5 counterexample: on the spec scenario (template path
`"/ip/\x7bobservable\x7d"`, base URL `"https://api.example/"`, observable
`"1.2.3.4"`) the code produces `"https://api.example//ip/1.2.3.4"` (plain
concatenation, double slash), not the claimed
`"https://api.example/ip/1.2.3.4"`. -/
theorem substitute_url_example_counterexample :
    ((substituteParms exampleProvider "1.2.3.4" "ipv4" Option.none).toOption.map
        (fun pr => pr.2.url)) = some "https://api.example//ip/1.2.3.4" ∧
    ("https://api.example//ip/1.2.3.4" : String) ≠ "https://api.example/ip/1.2.3.4" := by
  exact ⟨rfl, by decide⟩

/-- C5 (amended): for every template with `fullUrl=false` the build step
produces the request URL by concatenating the provider base URL with the
template path formatted against the full substitution context, and for
`fullUrl=true` the path is formatted using only the observable; on the
spec's concrete scenario the built URL is
`"https://api.example//ip/1.2.3.4"` (the code does plain string
concatenation, so the trailing slash of the base URL is kept). -/
theorem substituteParms_found {prov : HttpProvider} {value value_type : String}
    {qt : Option String} {src : IoCLookupParams}
    (hfound : List.lookup (valueKey value_type qt) prov.ioc_query_defs = some src) :
    substituteParms prov value value_type qt = substAfterFind prov src value := by
  unfold substituteParms
  rw [hfound]

theorem substAfterFind_ok {prov : HttpProvider} {src : IoCLookupParams}
    {value : String} {verb : String} {rd : ReqDict}
    (h : substAfterFind prov src value = .ok (verb, rd)) :
    verb = src.verb ∧
    substUrl prov src value = .ok rd.url ∧
    substHeaders src (buildCtx prov value) = .ok rd.headers ∧
    substOptDict src.params (buildCtx prov value) = .ok rd.params ∧
    substOptDict src.data (buildCtx prov value) = .ok rd.data ∧
    substAuth src (buildCtx prov value) = .ok rd.auth := by
  unfold substAfterFind at h
  cases hu : substUrl prov src value with
  | error e => rw [hu] at h; cases h
  | ok url =>
    rw [hu] at h
    cases hh : substHeaders src (buildCtx prov value) with
    | error e => rw [hh] at h; cases h
    | ok hdrs =>
      rw [hh] at h
      cases hp : substOptDict src.params (buildCtx prov value) with
      | error e => rw [hp] at h; cases h
      | ok qp =>
        rw [hp] at h
        cases hd : substOptDict src.data (buildCtx prov value) with
        | error e => rw [hd] at h; cases h
        | ok qd =>
          rw [hd] at h
          cases ha : substAuth src (buildCtx prov value) with
          | error e => rw [ha] at h; cases h
          | ok au =>
            rw [ha] at h
            injection h with h2
            have hv : verb = src.verb := (congrArg Prod.fst h2).symm
            have hr : rd = ⟨hdrs, url, qp, qd, au⟩ := (congrArg Prod.snd h2).symm
            subst hr
            exact ⟨hv, rfl, rfl, rfl, rfl, rfl⟩

/-- C5 (amended): for every template with `fullUrl=false` the build step
produces the request URL by concatenating the provider base URL with the
template path formatted against the full substitution context, and for
`fullUrl=true` the path is formatted using only the observable; on the
spec's concrete scenario the built URL is
`"https://api.example//ip/1.2.3.4"` (the code does plain string
concatenation, so the trailing slash of the base URL is kept). -/
theorem substitute_url_resolution :
    (∀ (prov : HttpProvider) (value value_type : String) (qt : Option String)
       (src : IoCLookupParams) (verb : String) (rd : ReqDict),
      List.lookup (valueKey value_type qt) prov.ioc_query_defs = some src →
      substituteParms prov value value_type qt = .ok (verb, rd) →
      (src.full_url = true →
        pyFormatStr src.path [("observable", value)] = .ok rd.url) ∧
      (src.full_url = false →
        ∃ p, pyFormatStr src.path (buildCtx prov value) = .ok p ∧
          rd.url = prov.base_url ++ p)) ∧
    ((substituteParms exampleProvider "1.2.3.4" "ipv4" Option.none).toOption.map
        (fun pr => pr.2.url)) = some "https://api.example//ip/1.2.3.4" := by
  constructor
  · intro prov value value_type qt src verb rd hfound hok
    rw [substituteParms_found hfound] at hok
    have hurl := (substAfterFind_ok hok).2.1
    constructor
    · intro hfu
      unfold substUrl at hurl
      rw [if_pos hfu] at hurl
      exact hurl
    · intro hfu
      unfold substUrl at hurl
      rw [hfu] at hurl
      simp only [Bool.false_eq_true, if_false] at hurl
      cases hfs : pyFormatStr src.path (buildCtx prov value) with
      | error e => rw [hfs] at hurl; cases hurl
      | ok p =>
        rw [hfs] at hurl
        injection hurl with h2
        exact ⟨p, rfl, h2.symm⟩
  · rfl

/-- C5 witness: `substitute_url_resolution` applied at the example
provider (`fullUrl=false`): the built URL is the base URL concatenated
with the formatted path. -/
theorem substitute_url_resolution_witness :
    ∃ p, pyFormatStr "/ip/\x7bobservable\x7d" (buildCtx exampleProvider "1.2.3.4") =
        .ok p ∧
      "https://api.example//ip/1.2.3.4" = exampleProvider.base_url ++ p :=
  (substitute_url_resolution.1 exampleProvider "1.2.3.4" "ipv4" Option.none
    { path := "/ip/\x7bobservable\x7d" } "GET"
    ⟨mpUaHeader, "https://api.example//ip/1.2.3.4", Option.none, Option.none, Option.none⟩
    rfl rfl).2 rfl

/-! ### C7: credential cache invalidation -/

/-- C7 counterexample: `cred_cloud` is never updated after a re-run, so
with initial cloud `"global"`, a first `connect(cloud="usgov")` re-runs
the chain and caches a pair produced for `"usgov"`, yet a second
`connect(cloud="usgov")` before token expiry re-runs the chain again
(count 1), although the claim says this case returns the cached pair with
no re-resolution (count 0). -/
theorem cached_connect_cloud_counterexample :
    (cachedConnect cx7core (fun _ => 1000) 0 "global"
        { cloud := some "usgov" } { az_credentials := Option.none, cred_cloud := "global" }).2.1 =
      { az_credentials := some (cx7core { cloud := some "usgov" }), cred_cloud := "global" } ∧
    ((1000 : Int) ≤ 0) = False ∧
    (cachedConnect cx7core (fun _ => 1000) 0 "global"
        { cloud := some "usgov" }
        { az_credentials := some (cx7core { cloud := some "usgov" }), cred_cloud := "global" }).2.2 = 1 := by
  refine ⟨rfl, by simp, rfl⟩

/-- C7 (amended): the cached connect re-runs the full credential chain
exactly when no cached pair exists, or the modern credential's token has
passed its expiry timestamp, or the requested cloud differs from the
cloud recorded when the cache object was first created (`cred_cloud`, which
`connect` never updates — not the cloud used to produce the cached
pair); in every other case it returns the identical cached pair object,
leaves the state unchanged and performs no chain re-resolution. -/
theorem cached_connect_invalidation
    (core : ConnectKwargs → AzCredentials) (tokenExpiresOn : AzCredentials → Int)
    (now : Int) (currentCloud : String) (kwargs : ConnectKwargs)
    (st : AzCachedState) :
    ((cachedConnect core tokenExpiresOn now currentCloud kwargs st).2.2 = 0 ↔
      (∃ c, st.az_credentials = some c ∧ ¬ (tokenExpiresOn c ≤ now)) ∧
        kwargs.cloud.getD (kwargs.region.getD currentCloud) = st.cred_cloud) ∧
    ((cachedConnect core tokenExpiresOn now currentCloud kwargs st).2.2 = 0 →
      st.az_credentials =
        some (cachedConnect core tokenExpiresOn now currentCloud kwargs st).1 ∧
      (cachedConnect core tokenExpiresOn now currentCloud kwargs st).2.1 = st) := by
  cases st with
  | mk cred cc =>
    cases cred with
    | none =>
      constructor
      · constructor
        · intro h
          cases h
        · rintro ⟨⟨c, hc, _⟩, _⟩
          cases hc
      · intro h
        cases h
    | some c =>
      by_cases hexp : tokenExpiresOn c ≤ now
      · by_cases hcl : cc ≠ kwargs.cloud.getD (kwargs.region.getD currentCloud)
        · constructor
          · constructor
            · intro h
              simp only [cachedConnect, if_pos hexp, if_pos hcl] at h
              cases h
            · rintro ⟨⟨c', hc', hne⟩, _⟩
              injection hc' with hcc
              subst hcc
              exact absurd hexp hne
          · intro h
            simp only [cachedConnect, if_pos hexp, if_pos hcl] at h
            cases h
        · constructor
          · constructor
            · intro h
              simp only [cachedConnect, if_pos hexp, if_neg hcl] at h
              cases h
            · rintro ⟨⟨c', hc', hne⟩, _⟩
              injection hc' with hcc
              subst hcc
              exact absurd hexp hne
          · intro h
            simp only [cachedConnect, if_pos hexp, if_neg hcl] at h
            cases h
      · by_cases hcl : cc ≠ kwargs.cloud.getD (kwargs.region.getD currentCloud)
        · constructor
          · constructor
            · intro h
              simp only [cachedConnect, if_neg hexp, if_pos hcl] at h
              cases h
            · rintro ⟨_, hcl2⟩
              exact absurd hcl2.symm hcl
          · intro h
            simp only [cachedConnect, if_neg hexp, if_pos hcl] at h
            cases h
        · constructor
          · constructor
            · intro _
              refine ⟨⟨c, rfl, hexp⟩, ?_⟩
              by_contra hne
              exact hcl (fun hq => hne hq.symm)
            · intro _
              simp [cachedConnect, if_neg hexp, if_neg hcl]
          · intro _
            simp [cachedConnect, if_neg hexp, if_neg hcl]

/-- C7 witness: `cached_connect_invalidation` applied at a cached,
unexpired pair with unchanged cloud: no re-resolution, identical pair. -/
theorem cached_connect_invalidation_witness :
    (cachedConnect cx7core (fun _ => 1000) 0 "global" {}
        { az_credentials := some { legacy := 1, modern := 2 }, cred_cloud := "global" }).2.2 = 0 ∧
    (cachedConnect cx7core (fun _ => 1000) 0 "global" {}
        { az_credentials := some { legacy := 1, modern := 2 }, cred_cloud := "global" }).1 =
      { legacy := 1, modern := 2 } := by
  have h := cached_connect_invalidation cx7core (fun _ => 1000) 0 "global" {}
    { az_credentials := some { legacy := 1, modern := 2 }, cred_cloud := "global" }
  have hn := h.1.mpr ⟨⟨{ legacy := 1, modern := 2 }, rfl, by decide⟩, rfl⟩
  refine ⟨hn, ?_⟩
  have h2 := (h.2 hn).1
  exact (Option.some.inj h2).symm

/-! ### C8: auth-method exclusion and the persistent module-global -/

/-- C8: evaluation of the exclusion logic at the failing input.  A first
call with `auth_methods=["cli"]` enables exactly `cli` (everything else
excluded).  A second call with `auth_methods=["env"]` mutates the same
module-global `_EXCLUDED_AUTH`, so `cli` is still enabled: the chain built
by the second call excludes neither `cli` nor `env`, although the claim
requires exactly the non-`["env"]` methods — including `cli` — to be
excluded on every call. -/
theorem az_connect_exclusion_persistence :
    (azConnectCoreCreds (some ["cli"]) excludedAuthInit).1 =
      { exclude_cli := false, exclude_environment := true,
        exclude_managed_identity := true, exclude_powershell := true,
        exclude_visual_studio_code := true, exclude_shared_token_cache := true,
        exclude_interactive_browser := true } ∧
    (azConnectCoreCreds (some ["env"])
        (azConnectCoreCreds (some ["cli"]) excludedAuthInit).2).1.exclude_cli = false ∧
    (azConnectCoreCreds (some ["env"])
        (azConnectCoreCreds (some ["cli"]) excludedAuthInit).2).1.exclude_environment = false := by
  exact ⟨rfl, rfl, rfl⟩

/-! ### C6: memoization of `lookup_ioc` -/

theorem lruCallExc_hit {K V E : Type} [DecidableEq K] (m : Nat) (f : K → Except E V)
    (k : K) (c : List (K × V)) (v : V) (h : lruGet k c = some v) :
    lruCallExc m f k c = (.ok v, (k, v) :: lruDrop k c, false) := by
  unfold lruCallExc
  rw [h]

theorem lruCallExc_miss_ok {K V E : Type} [DecidableEq K] (m : Nat) {f : K → Except E V}
    {k : K} {c : List (K × V)} {v : V}
    (hg : lruGet k c = Option.none) (hf : f k = .ok v) :
    lruCallExc m f k c = (.ok v, List.take m ((k, v) :: c), true) := by
  unfold lruCallExc
  rw [hg, hf]

theorem lruCallExc_miss_err {K V E : Type} [DecidableEq K] (m : Nat) {f : K → Except E V}
    {k : K} {c : List (K × V)} {e : E}
    (hg : lruGet k c = Option.none) (hf : f k = .error e) :
    lruCallExc m f k c = (.error e, c, true) := by
  unfold lruCallExc
  rw [hg, hf]

theorem lruGet_cons_self {K V : Type} [DecidableEq K] (k : K) (v : V) (c : List (K × V)) :
    lruGet k ((k, v) :: c) = some v := by
  unfold lruGet
  rw [if_pos rfl]

theorem lruGet_some_drop_lt {K V : Type} [DecidableEq K] {k : K} {c : List (K × V)} {v : V}
    (h : lruGet k c = some v) : (lruDrop k c).length < c.length := by
  induction c with
  | nil => cases h
  | cons kv rest ih =>
    obtain ⟨k', v'⟩ := kv
    unfold lruDrop at ih ⊢
    by_cases hk : k' = k
    · rw [List.filter_cons, if_neg (by simp [hk])]
      simp only [List.length_cons]
      have := List.length_filter_le (fun kv => decide (kv.1 ≠ k)) rest
      omega
    · rw [List.filter_cons, if_pos (by simp [hk])]
      unfold lruGet at h
      rw [if_neg hk] at h
      have := ih h
      simp only [List.length_cons]
      omega

theorem lruCallExc_repeat {K V E : Type} [DecidableEq K] (m : Nat) (hm : 1 ≤ m)
    (f : K → Except E V) (k : K) (c : List (K × V)) (v : V)
    (h : (lruCallExc m f k c).1 = .ok v) :
    (lruCallExc m f k (lruCallExc m f k c).2.1).1 = .ok v ∧
    (lruCallExc m f k (lruCallExc m f k c).2.1).2.2 = false := by
  cases hg : lruGet k c with
  | some w =>
    rw [lruCallExc_hit m f k c w hg] at h ⊢
    have hv : w = v := Except.ok.inj h
    rw [lruCallExc_hit m f k _ w (lruGet_cons_self k w (lruDrop k c)), hv]
    exact ⟨rfl, rfl⟩
  | none =>
    cases hf : f k with
    | error e =>
      rw [lruCallExc_miss_err m hg hf] at h
      cases h
    | ok w =>
      rw [lruCallExc_miss_ok m hg hf] at h ⊢
      have hv : w = v := Except.ok.inj h
      have htake : List.take m ((k, w) :: c) = (k, w) :: List.take (m - 1) c := by
        cases m with
        | zero => omega
        | succ n => simp [List.take]
      rw [htake, lruCallExc_hit m f k _ w (lruGet_cons_self k w (List.take (m - 1) c)), hv]
      exact ⟨rfl, rfl⟩

theorem lruCallExc_bounded {K V E : Type} [DecidableEq K] (m : Nat) (f : K → Except E V)
    (k : K) (c : List (K × V)) (h : c.length ≤ m) :
    ((lruCallExc m f k c).2.1).length ≤ m := by
  cases hg : lruGet k c with
  | some w =>
    rw [lruCallExc_hit m f k c w hg]
    have := lruGet_some_drop_lt hg
    simp only [List.length_cons]
    omega
  | none =>
    cases hf : f k with
    | error e =>
      rw [lruCallExc_miss_err m hg hf]
      exact h
    | ok w =>
      rw [lruCallExc_miss_ok m hg hf]
      simp only [List.length_take]
      omega

theorem lruCallExc_evict {K V E : Type} [DecidableEq K] (m : Nat) (f : K → Except E V)
    (k : K) (c : List (K × V)) (v : V) (hm : 1 ≤ m) (hlen : c.length = m)
    (hg : lruGet k c = Option.none) (hf : f k = .ok v) :
    (lruCallExc m f k c).2.1 = (k, v) :: c.dropLast := by
  rw [lruCallExc_miss_ok m hg hf]
  have htake : List.take m ((k, v) :: c) = (k, v) :: List.take (m - 1) c := by
    cases m with
    | zero => omega
    | succ n => simp [List.take]
  rw [htake]
  rw [List.dropLast_eq_take, hlen]

/-- C6: repeated `lookup_ioc` with the same argument tuple returns the
identical cached `LookupResult` without invoking the underlying lookup
again (no second network call); the cache is bounded by `maxsize=256`;
and on a miss with a full cache the evicted entry is the oldest in
recency order — the least-recently-used entry, which is the eviction
order `functools.lru_cache` implements (a hit refreshes an entry's
recency by moving it to the front). -/
theorem lookup_ioc_memoization_lru (prov : HttpProvider)
    (parse_results : LookupResult → Except PyError (Bool × ResultSeverity × PyObj))
    (httpGet : ReqDict → Except PyError HttpResponse) (tb : String)
    (checkOf : LookupKey → LookupResult) (className : String)
    (k : LookupKey) (cache : List (LookupKey × LookupResult)) :
    (∀ v, (lookupIocCached prov parse_results httpGet tb checkOf className k cache).1 = .ok v →
      (lookupIocCached prov parse_results httpGet tb checkOf className k
          (lookupIocCached prov parse_results httpGet tb checkOf className k cache).2.1).1 = .ok v ∧
      (lookupIocCached prov parse_results httpGet tb checkOf className k
          (lookupIocCached prov parse_results httpGet tb checkOf className k cache).2.1).2.2 = false) ∧
    (cache.length ≤ 256 →
      ((lookupIocCached prov parse_results httpGet tb checkOf className k cache).2.1).length ≤ 256) ∧
    (∀ maxsize : Nat, 1 ≤ maxsize → cache.length = maxsize →
      lruGet k cache = Option.none →
      ∀ v, lookupIocUncached prov parse_results httpGet tb checkOf className k = .ok v →
      (lruCallExc maxsize (lookupIocUncached prov parse_results httpGet tb checkOf className)
          k cache).2.1 = (k, v) :: cache.dropLast) := by
  refine ⟨?_, ?_, ?_⟩
  · intro v h
    exact lruCallExc_repeat 256 (by omega)
      (lookupIocUncached prov parse_results httpGet tb checkOf className) k cache v h
  · intro h
    exact lruCallExc_bounded 256
      (lookupIocUncached prov parse_results httpGet tb checkOf className) k cache h
  · intro maxsize hm hlen hg v hf
    exact lruCallExc_evict maxsize
      (lookupIocUncached prov parse_results httpGet tb checkOf className) k cache v hm hlen hg hf

/-- C6 witness: `lookup_ioc_memoization_lru` applied at concrete data —
the repeated call returns the identical cached result with no second
invocation, the cache stays bounded, and at a full cache of size 2 the
final (least recently used) entry is evicted. -/
theorem lookup_ioc_memoization_lru_witness :
    ((lookupIocCached {} w6parse w6http "TB" w6check "X" {}
        (lookupIocCached {} w6parse w6http "TB" w6check "X" {} []).2.1).1 = .ok w6res ∧
      (lookupIocCached {} w6parse w6http "TB" w6check "X" {}
        (lookupIocCached {} w6parse w6http "TB" w6check "X" {} []).2.1).2.2 = false) ∧
    ((lookupIocCached {} w6parse w6http "TB" w6check "X" {} []).2.1).length ≤ 256 ∧
    (lruCallExc 2 (lookupIocUncached {} w6parse w6http "TB" w6check "X") {} w6cache2).2.1 =
      ({}, w6res) :: w6cache2.dropLast := by
  have h := lookup_ioc_memoization_lru {} w6parse w6http "TB" w6check "X" {} []
  have h3 := lookup_ioc_memoization_lru {} w6parse w6http "TB" w6check "X" {} w6cache2
  exact ⟨h.1 w6res rfl, h.2.1 (by decide), h3.2.2 2 (by omega) rfl rfl w6res rfl⟩

/-! ### C4: missing placeholders fail with `KeyError` -/

theorem namedGo_format_err (ctx : List (String × String)) (s : List Char) :
    ∀ (m : FmtMode) (ns : List String) (e : PyError),
      namedPlaceholdersGo s m = some ns → pyFormatGo ctx s m = .error e →
      ∃ k, e = .keyError k ∧ List.lookup k ctx = Option.none := by
  induction s with
  | nil =>
    intro m ns e hn he
    cases m with
    | normal => exact Except.noConfusion he
    | sawOpen => exact Option.noConfusion hn
    | sawClose => exact Option.noConfusion hn
    | name acc => exact Option.noConfusion hn
  | cons c rest ih =>
    intro m ns e hn he
    cases m with
    | normal =>
      simp only [namedPlaceholdersGo, pyFormatGo] at hn he
      by_cases h1 : c = lbraceChar
      · rw [if_pos h1] at hn he
        exact ih _ _ _ hn he
      · rw [if_neg h1] at hn he
        by_cases h2 : c = rbraceChar
        · rw [if_pos h2] at hn he
          exact ih _ _ _ hn he
        · rw [if_neg h2] at hn he
          cases hrec : pyFormatGo ctx rest .normal with
          | error e2 =>
            simp only [hrec] at he
            cases he
            exact ih _ _ _ hn hrec
          | ok t =>
            simp only [hrec] at he
            exact Except.noConfusion he
    | sawOpen =>
      simp only [namedPlaceholdersGo, pyFormatGo] at hn he
      by_cases h1 : c = lbraceChar
      · rw [if_pos h1] at hn he
        cases hrec : pyFormatGo ctx rest .normal with
        | error e2 =>
          simp only [hrec] at he
          cases he
          exact ih _ _ _ hn hrec
        | ok t =>
          simp only [hrec] at he
          exact Except.noConfusion he
      · rw [if_neg h1] at hn he
        by_cases h2 : c = rbraceChar
        · rw [if_pos h2] at hn
          exact Option.noConfusion hn
        · rw [if_neg h2] at hn he
          exact ih _ _ _ hn he
    | sawClose =>
      simp only [namedPlaceholdersGo, pyFormatGo] at hn he
      by_cases h2 : c = rbraceChar
      · rw [if_pos h2] at hn he
        cases hrec : pyFormatGo ctx rest .normal with
        | error e2 =>
          simp only [hrec] at he
          cases he
          exact ih _ _ _ hn hrec
        | ok t =>
          simp only [hrec] at he
          exact Except.noConfusion he
      · rw [if_neg h2] at hn
        exact Option.noConfusion hn
    | name acc =>
      simp only [namedPlaceholdersGo, pyFormatGo] at hn he
      by_cases h2 : c = rbraceChar
      · rw [if_pos h2] at hn he
        cases hl : List.lookup (String.mk acc.reverse) ctx with
        | none =>
          rw [hl] at he
          cases he
          exact ⟨String.mk acc.reverse, rfl, hl⟩
        | some v =>
          rw [hl] at he
          cases hrecN : namedPlaceholdersGo rest .normal with
          | none =>
            rw [hrecN] at hn
            exact Option.noConfusion hn
          | some ns2 =>
            rw [hrecN] at hn
            cases hrec : pyFormatGo ctx rest .normal with
            | error e2 =>
              simp only [hrec] at he
              cases he
              exact ih _ _ _ hrecN hrec
            | ok t =>
              simp only [hrec] at he
              exact Except.noConfusion he
      · rw [if_neg h2] at hn he
        by_cases h1 : c = lbraceChar
        · rw [if_pos h1] at hn
          exact Option.noConfusion hn
        · rw [if_neg h1] at hn he
          exact ih _ _ _ hn he

theorem namedGo_format_ok (ctx : List (String × String)) (s : List Char) :
    ∀ (m : FmtMode) (ns : List String) (out : List Char),
      namedPlaceholdersGo s m = some ns → pyFormatGo ctx s m = .ok out →
      ∀ n ∈ ns, (List.lookup n ctx).isSome = true := by
  induction s with
  | nil =>
    intro m ns out hn ho
    cases m with
    | normal =>
      injection hn with hns
      subst hns
      intro n hni
      cases hni
    | sawOpen => exact Option.noConfusion hn
    | sawClose => exact Option.noConfusion hn
    | name acc => exact Option.noConfusion hn
  | cons c rest ih =>
    intro m ns out hn ho
    cases m with
    | normal =>
      simp only [namedPlaceholdersGo, pyFormatGo] at hn ho
      by_cases h1 : c = lbraceChar
      · rw [if_pos h1] at hn ho
        exact ih _ _ _ hn ho
      · rw [if_neg h1] at hn ho
        by_cases h2 : c = rbraceChar
        · rw [if_pos h2] at hn ho
          exact ih _ _ _ hn ho
        · rw [if_neg h2] at hn ho
          cases hrec : pyFormatGo ctx rest .normal with
          | error e2 =>
            simp only [hrec] at ho
            exact Except.noConfusion ho
          | ok t =>
            simp only [hrec] at ho
            exact ih _ _ _ hn hrec
    | sawOpen =>
      simp only [namedPlaceholdersGo, pyFormatGo] at hn ho
      by_cases h1 : c = lbraceChar
      · rw [if_pos h1] at hn ho
        cases hrec : pyFormatGo ctx rest .normal with
        | error e2 =>
            simp only [hrec] at ho
            exact Except.noConfusion ho
        | ok t =>
          simp only [hrec] at ho
          exact ih _ _ _ hn hrec
      · rw [if_neg h1] at hn ho
        by_cases h2 : c = rbraceChar
        · rw [if_pos h2] at hn
          exact Option.noConfusion hn
        · rw [if_neg h2] at hn ho
          exact ih _ _ _ hn ho
    | sawClose =>
      simp only [namedPlaceholdersGo, pyFormatGo] at hn ho
      by_cases h2 : c = rbraceChar
      · rw [if_pos h2] at hn ho
        cases hrec : pyFormatGo ctx rest .normal with
        | error e2 =>
            simp only [hrec] at ho
            exact Except.noConfusion ho
        | ok t =>
          simp only [hrec] at ho
          exact ih _ _ _ hn hrec
      · rw [if_neg h2] at hn
        exact Option.noConfusion hn
    | name acc =>
      simp only [namedPlaceholdersGo, pyFormatGo] at hn ho
      by_cases h2 : c = rbraceChar
      · rw [if_pos h2] at hn ho
        cases hl : List.lookup (String.mk acc.reverse) ctx with
        | none =>
          rw [hl] at ho
          exact Except.noConfusion ho
        | some v =>
          rw [hl] at ho
          cases hrecN : namedPlaceholdersGo rest .normal with
          | none =>
            rw [hrecN] at hn
            exact Option.noConfusion hn
          | some ns2 =>
            rw [hrecN] at hn
            injection hn with hns
            subst hns
            cases hrec : pyFormatGo ctx rest .normal with
            | error e2 =>
            simp only [hrec] at ho
            exact Except.noConfusion ho
            | ok t =>
              simp only [hrec] at ho
              intro n hni
              rcases List.mem_cons.1 hni with hn1 | hn2
              · subst hn1
                rw [hl]
                rfl
              · exact ih _ _ _ hrecN hrec n hn2
      · rw [if_neg h2] at hn ho
        by_cases h1 : c = lbraceChar
        · rw [if_pos h1] at hn
          exact Option.noConfusion hn
        · rw [if_neg h1] at hn ho
          exact ih _ _ _ hn ho

theorem fmtStr_err {s : String} {ctx : List (String × String)} {e : PyError}
    (hwf : wfStr s = true) (he : pyFormatStr s ctx = .error e) :
    ∃ k, e = .keyError k ∧ List.lookup k ctx = Option.none := by
  obtain ⟨ns, hn⟩ : ∃ ns, namedPlaceholders s = some ns := by
    unfold wfStr at hwf
    cases h : namedPlaceholders s with
    | none => rw [h] at hwf; cases hwf
    | some ns => exact ⟨ns, rfl⟩
  unfold pyFormatStr at he
  cases hgo : pyFormatGo ctx s.data .normal with
  | error e2 =>
    rw [hgo] at he
    injection he with he2
    subst he2
    exact namedGo_format_err ctx s.data .normal ns e2 hn hgo
  | ok t =>
    rw [hgo] at he
    exact Except.noConfusion he

theorem fmtStr_ok_nomissing {s : String} {ctx : List (String × String)} {out : String}
    (hwf : wfStr s = true) (ho : pyFormatStr s ctx = .ok out) :
    strMissing ctx s = false := by
  obtain ⟨ns, hn⟩ : ∃ ns, namedPlaceholders s = some ns := by
    unfold wfStr at hwf
    cases h : namedPlaceholders s with
    | none => rw [h] at hwf; cases hwf
    | some ns => exact ⟨ns, rfl⟩
  unfold pyFormatStr at ho
  cases hgo : pyFormatGo ctx s.data .normal with
  | error e2 =>
    rw [hgo] at ho
    exact Except.noConfusion ho
  | ok t =>
    have hall := namedGo_format_ok ctx s.data .normal ns t hn hgo
    unfold strMissing
    rw [hn]
    rw [List.any_eq_false]
    intro n hni
    have hsome := hall n hni
    cases hl : List.lookup n ctx with
    | none => rw [hl] at hsome; cases hsome
    | some v => simp

theorem fmtStr_missing_err {s : String} {ctx : List (String × String)}
    (hwf : wfStr s = true) (hm : strMissing ctx s = true) :
    ∃ k, pyFormatStr s ctx = .error (.keyError k) := by
  cases h : pyFormatStr s ctx with
  | ok out =>
    rw [fmtStr_ok_nomissing hwf h] at hm
    cases hm
  | error e =>
    obtain ⟨k, hk, _⟩ := fmtStr_err hwf h
    exact ⟨k, by rw [hk]⟩

theorem formatDict_err {ctx : List (String × String)} :
    ∀ {entries : List (String × String)} {e : PyError},
      entries.all (fun kv => wfStr kv.2) = true →
      formatDict ctx entries = .error e → ∃ k, e = .keyError k := by
  intro entries
  induction entries with
  | nil =>
    intro e _ he
    exact Except.noConfusion he
  | cons kv rest ih =>
    intro e hwf he
    rw [List.all_cons, Bool.and_eq_true] at hwf
    unfold formatDict at he
    cases hf : pyFormatStr kv.2 ctx with
    | error e2 =>
      rw [hf] at he
      injection he with he2
      subst he2
      obtain ⟨k, hk, _⟩ := fmtStr_err hwf.1 hf
      exact ⟨k, hk⟩
    | ok fv =>
      rw [hf] at he
      cases hr : formatDict ctx rest with
      | error e2 =>
        rw [hr] at he
        injection he with he2
        subst he2
        exact ih hwf.2 hr
      | ok frest =>
        rw [hr] at he
        exact Except.noConfusion he

theorem formatDict_ok_nomissing {ctx : List (String × String)} :
    ∀ {entries : List (String × String)} {out : List (String × String)},
      entries.all (fun kv => wfStr kv.2) = true →
      formatDict ctx entries = .ok out →
      ∀ kv ∈ entries, strMissing ctx kv.2 = false := by
  intro entries
  induction entries with
  | nil =>
    intro out _ _ kv hkv
    cases hkv
  | cons kv0 rest ih =>
    intro out hwf ho kv hkv
    rw [List.all_cons, Bool.and_eq_true] at hwf
    unfold formatDict at ho
    cases hf : pyFormatStr kv0.2 ctx with
    | error e2 =>
      rw [hf] at ho
      exact Except.noConfusion ho
    | ok fv =>
      rw [hf] at ho
      cases hr : formatDict ctx rest with
      | error e2 =>
        rw [hr] at ho
        exact Except.noConfusion ho
      | ok frest =>
        rcases List.mem_cons.1 hkv with h1 | h2
        · subst h1
          exact fmtStr_ok_nomissing hwf.1 hf
        · exact ih hwf.2 hr kv h2

theorem formatList_err {ctx : List (String × String)} :
    ∀ {entries : List String} {e : PyError},
      entries.all wfStr = true →
      formatList ctx entries = .error e → ∃ k, e = .keyError k := by
  intro entries
  induction entries with
  | nil =>
    intro e _ he
    exact Except.noConfusion he
  | cons s rest ih =>
    intro e hwf he
    rw [List.all_cons, Bool.and_eq_true] at hwf
    unfold formatList at he
    cases hf : pyFormatStr s ctx with
    | error e2 =>
      rw [hf] at he
      injection he with he2
      subst he2
      obtain ⟨k, hk, _⟩ := fmtStr_err hwf.1 hf
      exact ⟨k, hk⟩
    | ok fs =>
      rw [hf] at he
      cases hr : formatList ctx rest with
      | error e2 =>
        rw [hr] at he
        injection he with he2
        subst he2
        exact ih hwf.2 hr
      | ok frest =>
        rw [hr] at he
        exact Except.noConfusion he

theorem formatList_ok_nomissing {ctx : List (String × String)} :
    ∀ {entries : List String} {out : List String},
      entries.all wfStr = true →
      formatList ctx entries = .ok out →
      ∀ s ∈ entries, strMissing ctx s = false := by
  intro entries
  induction entries with
  | nil =>
    intro out _ _ s hs
    cases hs
  | cons s0 rest ih =>
    intro out hwf ho s hs
    rw [List.all_cons, Bool.and_eq_true] at hwf
    unfold formatList at ho
    cases hf : pyFormatStr s0 ctx with
    | error e2 =>
      rw [hf] at ho
      exact Except.noConfusion ho
    | ok fs =>
      rw [hf] at ho
      cases hr : formatList ctx rest with
      | error e2 =>
        rw [hr] at ho
        exact Except.noConfusion ho
      | ok frest =>
        rcases List.mem_cons.1 hs with h1 | h2
        · subst h1
          exact fmtStr_ok_nomissing hwf.1 hf
        · exact ih hwf.2 hr s h2

theorem substUrl_err {prov : HttpProvider} {src : IoCLookupParams} {value : String}
    {e : PyError} (hwf : wfStr src.path = true)
    (he : substUrl prov src value = .error e) : ∃ k, e = .keyError k := by
  unfold substUrl at he
  by_cases hfu : src.full_url = true
  · rw [if_pos hfu] at he
    obtain ⟨k, hk, _⟩ := fmtStr_err hwf he
    exact ⟨k, hk⟩
  · rw [if_neg hfu] at he
    cases hf : pyFormatStr src.path (buildCtx prov value) with
    | error e2 =>
      rw [hf] at he
      injection he with h2
      subst h2
      obtain ⟨k, hk, _⟩ := fmtStr_err hwf hf
      exact ⟨k, hk⟩
    | ok p =>
      rw [hf] at he
      exact Except.noConfusion he

theorem substUrl_ok_nomissing {prov : HttpProvider} {src : IoCLookupParams}
    {value : String} {u : String} (hwf : wfStr src.path = true)
    (ho : substUrl prov src value = .ok u) :
    strMissing (if src.full_url then [("observable", value)] else buildCtx prov value)
      src.path = false := by
  unfold substUrl at ho
  by_cases hfu : src.full_url = true
  · rw [if_pos hfu] at ho ⊢
    exact fmtStr_ok_nomissing hwf ho
  · rw [if_neg hfu] at ho ⊢
    cases hf : pyFormatStr src.path (buildCtx prov value) with
    | error e2 =>
      rw [hf] at ho
      exact Except.noConfusion ho
    | ok p => exact fmtStr_ok_nomissing hwf hf

theorem substHeaders_err {src : IoCLookupParams} {ctx : List (String × String)}
    {e : PyError} (hwf : src.headers.all (fun kv => wfStr kv.2) = true)
    (he : substHeaders src ctx = .error e) : ∃ k, e = .keyError k := by
  unfold substHeaders at he
  by_cases hemp : src.headers.isEmpty = true
  · rw [if_pos hemp] at he
    exact Except.noConfusion he
  · rw [if_neg hemp] at he
    cases hf : formatDict ctx src.headers with
    | error e2 =>
      rw [hf] at he
      injection he with h2
      subst h2
      exact formatDict_err hwf hf
    | ok h0 =>
      rw [hf] at he
      exact Except.noConfusion he

theorem substHeaders_ok_nomissing {src : IoCLookupParams} {ctx : List (String × String)}
    {out : List (String × String)} (hwf : src.headers.all (fun kv => wfStr kv.2) = true)
    (ho : substHeaders src ctx = .ok out) :
    ∀ kv ∈ src.headers, strMissing ctx kv.2 = false := by
  unfold substHeaders at ho
  by_cases hemp : src.headers.isEmpty = true
  · intro kv hkv
    rw [List.isEmpty_iff] at hemp
    rw [hemp] at hkv
    cases hkv
  · rw [if_neg hemp] at ho
    cases hf : formatDict ctx src.headers with
    | error e2 =>
      rw [hf] at ho
      exact Except.noConfusion ho
    | ok h0 => exact formatDict_ok_nomissing hwf hf

theorem substOptDict_err {entries : List (String × String)} {ctx : List (String × String)}
    {e : PyError} (hwf : entries.all (fun kv => wfStr kv.2) = true)
    (he : substOptDict entries ctx = .error e) : ∃ k, e = .keyError k := by
  unfold substOptDict at he
  by_cases hemp : entries.isEmpty = true
  · rw [if_pos hemp] at he
    exact Except.noConfusion he
  · rw [if_neg hemp] at he
    cases hf : formatDict ctx entries with
    | error e2 =>
      rw [hf] at he
      injection he with h2
      subst h2
      exact formatDict_err hwf hf
    | ok d =>
      rw [hf] at he
      exact Except.noConfusion he

theorem substOptDict_ok_nomissing {entries : List (String × String)}
    {ctx : List (String × String)} {o : Option (List (String × String))}
    (hwf : entries.all (fun kv => wfStr kv.2) = true)
    (ho : substOptDict entries ctx = .ok o) :
    ∀ kv ∈ entries, strMissing ctx kv.2 = false := by
  unfold substOptDict at ho
  by_cases hemp : entries.isEmpty = true
  · intro kv hkv
    rw [List.isEmpty_iff] at hemp
    rw [hemp] at hkv
    cases hkv
  · rw [if_neg hemp] at ho
    cases hf : formatDict ctx entries with
    | error e2 =>
      rw [hf] at ho
      exact Except.noConfusion ho
    | ok d => exact formatDict_ok_nomissing hwf hf

theorem substAuth_err {src : IoCLookupParams} {ctx : List (String × String)}
    {e : PyError} (hwfa : src.auth_str.all wfStr = true)
    (he : substAuth src ctx = .error e) :
    (∃ k, e = .keyError k) ∨ (∃ strs, formatList ctx src.auth_str = .ok strs) := by
  unfold substAuth at he
  by_cases hg : src.auth_type ≠ "" ∧ ¬ src.auth_str.isEmpty = true
  · rw [if_pos hg] at he
    cases hf : formatList ctx src.auth_str with
    | error e2 =>
      rw [hf] at he
      injection he with h2
      subst h2
      left
      exact formatList_err hwfa hf
    | ok strs => exact Or.inr ⟨strs, rfl⟩
  · rw [if_neg hg] at he
    exact Except.noConfusion he

theorem substAuth_ok_nomissing {src : IoCLookupParams} {ctx : List (String × String)}
    {o : Option (List String)} (hwfa : src.auth_str.all wfStr = true)
    (ho : substAuth src ctx = .ok o)
    (hg : src.auth_type ≠ "" ∧ ¬ src.auth_str.isEmpty = true) :
    ∀ s ∈ src.auth_str, strMissing ctx s = false := by
  unfold substAuth at ho
  rw [if_pos hg] at ho
  cases hf : formatList ctx src.auth_str with
  | error e2 =>
    rw [hf] at ho
    exact Except.noConfusion ho
  | ok strs => exact formatList_ok_nomissing hwfa hf

theorem substAfterFind_err {prov : HttpProvider} {src : IoCLookupParams}
    {value : String} {e : PyError}
    (he : substAfterFind prov src value = .error e) :
    substUrl prov src value = .error e ∨
    substHeaders src (buildCtx prov value) = .error e ∨
    substOptDict src.params (buildCtx prov value) = .error e ∨
    substOptDict src.data (buildCtx prov value) = .error e ∨
    ((∃ u, substUrl prov src value = .ok u) ∧
     (∃ h, substHeaders src (buildCtx prov value) = .ok h) ∧
     (∃ p, substOptDict src.params (buildCtx prov value) = .ok p) ∧
     (∃ d, substOptDict src.data (buildCtx prov value) = .ok d) ∧
     substAuth src (buildCtx prov value) = .error e) := by
  unfold substAfterFind at he
  cases hu : substUrl prov src value with
  | error e2 =>
    rw [hu] at he
    injection he with h2
    subst h2
    exact Or.inl rfl
  | ok url =>
    rw [hu] at he
    cases hh : substHeaders src (buildCtx prov value) with
    | error e2 =>
      rw [hh] at he
      injection he with h2
      subst h2
      exact Or.inr (Or.inl rfl)
    | ok hdrs =>
      rw [hh] at he
      cases hp : substOptDict src.params (buildCtx prov value) with
      | error e2 =>
        rw [hp] at he
        injection he with h2
        subst h2
        exact Or.inr (Or.inr (Or.inl rfl))
      | ok qp =>
        rw [hp] at he
        cases hd : substOptDict src.data (buildCtx prov value) with
        | error e2 =>
          rw [hd] at he
          injection he with h2
          subst h2
          exact Or.inr (Or.inr (Or.inr (Or.inl rfl)))
        | ok qd =>
          rw [hd] at he
          cases ha : substAuth src (buildCtx prov value) with
          | error e2 =>
            rw [ha] at he
            injection he with h2
            subst h2
            exact Or.inr (Or.inr (Or.inr (Or.inr
              ⟨⟨url, rfl⟩, ⟨hdrs, rfl⟩, ⟨qp, rfl⟩, ⟨qd, rfl⟩, rfl⟩)))
          | ok au =>
            rw [ha] at he
            exact Except.noConfusion he

theorem any_false_of_all_false {A : Type} (l : List A) (p : A → Bool)
    (h : ∀ x ∈ l, p x = false) : l.any p = false :=
  List.any_eq_false.2 (fun x hx => by rw [h x hx]; exact Bool.false_ne_true)

theorem srcCtxMissing_false_of_ok {prov : HttpProvider} {src : IoCLookupParams}
    {value : String}
    (hwp : wfStr src.path = true)
    (hwh : src.headers.all (fun kv => wfStr kv.2) = true)
    (hwpar : src.params.all (fun kv => wfStr kv.2) = true)
    (hwd : src.data.all (fun kv => wfStr kv.2) = true)
    (hwa : src.auth_str.all wfStr = true)
    (hu : ∃ u, substUrl prov src value = .ok u)
    (hh : ∃ h, substHeaders src (buildCtx prov value) = .ok h)
    (hp : ∃ p, substOptDict src.params (buildCtx prov value) = .ok p)
    (hd : ∃ d, substOptDict src.data (buildCtx prov value) = .ok d)
    (ha : (¬ (src.auth_type ≠ "" ∧ ¬ src.auth_str.isEmpty = true)) ∨
      ∃ strs, formatList (buildCtx prov value) src.auth_str = .ok strs) :
    srcCtxMissing prov value src = false := by
  obtain ⟨u, hu⟩ := hu
  obtain ⟨hdrs, hh⟩ := hh
  obtain ⟨qp, hp⟩ := hp
  obtain ⟨qd, hd⟩ := hd
  have hA := substUrl_ok_nomissing hwp hu
  have hB : src.headers.any (fun kv => strMissing (buildCtx prov value) kv.2) = false :=
    any_false_of_all_false _ _ (substHeaders_ok_nomissing hwh hh)
  have hC : src.params.any (fun kv => strMissing (buildCtx prov value) kv.2) = false :=
    any_false_of_all_false _ _ (substOptDict_ok_nomissing hwpar hp)
  have hD : src.data.any (fun kv => strMissing (buildCtx prov value) kv.2) = false :=
    any_false_of_all_false _ _ (substOptDict_ok_nomissing hwd hd)
  have hE : ((decide (src.auth_type ≠ "") && !src.auth_str.isEmpty) &&
      src.auth_str.any (strMissing (buildCtx prov value))) = false := by
    rcases ha with hng | ⟨strs, hfl⟩
    · have hguard : (decide (src.auth_type ≠ "") && !src.auth_str.isEmpty) = false := by
        cases hb : (decide (src.auth_type ≠ "") && !src.auth_str.isEmpty) with
        | false => rfl
        | true =>
          rw [Bool.and_eq_true] at hb
          have h1 : src.auth_type ≠ "" := of_decide_eq_true hb.1
          have h2 : ¬ src.auth_str.isEmpty = true := by
            have hb2 := hb.2
            rw [Bool.not_eq_true'] at hb2
            rw [hb2]
            exact Bool.false_ne_true
          exact absurd ⟨h1, h2⟩ hng
      rw [hguard, Bool.false_and]
    · have : src.auth_str.any (strMissing (buildCtx prov value)) = false :=
        any_false_of_all_false _ _ (formatList_ok_nomissing hwa hfl)
      rw [this, Bool.and_false]
  unfold srcCtxMissing
  rw [hA, hB, hC, hD, hE]
  rfl

theorem substAuth_ok_formatList {src : IoCLookupParams} {ctx : List (String × String)}
    {o : Option (List String)} (ho : substAuth src ctx = .ok o)
    (hg : src.auth_type ≠ "" ∧ ¬ src.auth_str.isEmpty = true) :
    ∃ strs, formatList ctx src.auth_str = .ok strs := by
  unfold substAuth at ho
  rw [if_pos hg] at ho
  cases hf : formatList ctx src.auth_str with
  | error e2 =>
    rw [hf] at ho
    exact Except.noConfusion ho
  | ok strs => exact ⟨strs, rfl⟩

/-- C4: for every registered template whose strings are well-formed format
strings, and every substitution context missing a placeholder required by
one of the template's path/header/query/body/auth strings, the build step
fails with the template-substitution error — the `KeyError` raised by
`str.format` for the missing key — and never with an unrelated error
type; in particular the failure is a different concrete exception type
from the `LookupError` raised for an unknown observable type (though in
Python `KeyError` is a subclass of `LookupError`). -/
theorem substitute_missing_placeholder_keyerror
    (prov : HttpProvider) (value value_type : String) (qt : Option String)
    (src : IoCLookupParams)
    (hfound : List.lookup (valueKey value_type qt) prov.ioc_query_defs = some src)
    (hwf : srcWellFormed src = true)
    (hmiss : srcCtxMissing prov value src = true) :
    ∃ k, substituteParms prov value value_type qt = .error (.keyError k) := by
  unfold srcWellFormed at hwf
  rw [Bool.and_eq_true, Bool.and_eq_true, Bool.and_eq_true, Bool.and_eq_true] at hwf
  obtain ⟨⟨⟨⟨hwp, hwh⟩, hwpar⟩, hwd⟩, hwa⟩ := hwf
  rw [substituteParms_found hfound]
  cases hres : substAfterFind prov src value with
  | ok pr =>
    obtain ⟨verb, rd⟩ := pr
    have hall := substAfterFind_ok hres
    have hauth : (¬ (src.auth_type ≠ "" ∧ ¬ src.auth_str.isEmpty = true)) ∨
        ∃ strs, formatList (buildCtx prov value) src.auth_str = .ok strs := by
      by_cases hg : src.auth_type ≠ "" ∧ ¬ src.auth_str.isEmpty = true
      · exact Or.inr (substAuth_ok_formatList hall.2.2.2.2.2 hg)
      · exact Or.inl hg
    have hfalse := srcCtxMissing_false_of_ok hwp hwh hwpar hwd hwa
      ⟨rd.url, hall.2.1⟩ ⟨rd.headers, hall.2.2.1⟩ ⟨rd.params, hall.2.2.2.1⟩
      ⟨rd.data, hall.2.2.2.2.1⟩ hauth
    rw [hfalse] at hmiss
    cases hmiss
  | error e =>
    rcases substAfterFind_err hres with h1 | h2 | h3 | h4 | ⟨hu, hh, hp, hd, ha⟩
    · obtain ⟨k, hk⟩ := substUrl_err hwp h1
      exact ⟨k, by rw [hk]⟩
    · obtain ⟨k, hk⟩ := substHeaders_err hwh h2
      exact ⟨k, by rw [hk]⟩
    · obtain ⟨k, hk⟩ := substOptDict_err hwpar h3
      exact ⟨k, by rw [hk]⟩
    · obtain ⟨k, hk⟩ := substOptDict_err hwd h4
      exact ⟨k, by rw [hk]⟩
    · rcases substAuth_err hwa ha with ⟨k, hk⟩ | ⟨strs, hfl⟩
      · exact ⟨k, by rw [hk]⟩
      · have hfalse := srcCtxMissing_false_of_ok hwp hwh hwpar hwd hwa hu hh hp hd
          (Or.inr ⟨strs, hfl⟩)
        rw [hfalse] at hmiss
        cases hmiss

/-- C4 witness: `substitute_missing_placeholder_keyerror` applied at a
template whose path placeholder `missing_key` has no context value. -/
theorem substitute_missing_placeholder_keyerror_witness :
    ∃ k, substituteParms w4prov "1.2.3.4" "ipv4" Option.none =
      .error (.keyError k) :=
  substitute_missing_placeholder_keyerror w4prov "1.2.3.4" "ipv4" Option.none
    { path := "/x/\x7bmissing_key\x7d" } rfl (by decide) (by decide)

/-! ### C1: `lookup_ioc` never raises past its boundary -/

theorem outerHandle_raw (r : LookupResult) (e : PyError) (tb : String)
    (url : Option String) :
    (outerHandle r e tb url).raw_result =
      .str (e.typeName ++ "\n" ++ e.toStr ++ "\n" ++ tb) := by
  unfold outerHandle errToResults
  split <;> rfl

theorem outerHandle_details (r : LookupResult) (e : PyError) (tb : String)
    (url : Option String) :
    (outerHandle r e tb url).details = e.argsObj := by
  unfold outerHandle errToResults
  split <;> rfl

theorem outerHandle_reference (r : LookupResult) (e : PyError) (tb : String)
    (url : Option String) (h : e.isLookupError = false) :
    (outerHandle r e tb url).reference = url := by
  unfold outerHandle
  rw [if_neg (by rw [h]; exact Bool.false_ne_true)]

/-- C1: whenever every exception the collaborators can produce is of a
kind listed in the `except` clause (unsupported observable type / missing
template, `JSONDecodeError` escaping response handling, unsupported verb,
connection failure — i.e. no uncaught kinds such as `ValueError` from a
malformed template), `lookup_ioc` returns normally with a `LookupResult`;
and when the single lookup failed, the exception's type name, message and
traceback are captured in `rawResult` and its args in `details` (for a
non-`LookupError`, the attempted URL lands in `reference`). -/
theorem lookup_ioc_never_raises (prov : HttpProvider)
    (parse_results : LookupResult → Except PyError (Bool × ResultSeverity × PyObj))
    (httpGet : ReqDict → Except PyError HttpResponse) (tb : String)
    (cr : LookupResult) (qt : Option String) (pn : String)
    (hS : ∀ e, substituteParms prov cr.safe_ioc cr.ioc_type qt = .error e →
      e.isCaught = true)
    (hH : ∀ rp e, httpGet rp = .error e → e.isCaught = true)
    (hP : ∀ r e, parse_results r = .error e → e.isCaught = true) :
    ∃ res : LookupResult,
      lookupIoc prov parse_results httpGet tb cr qt pn = .ok res ∧
      (cr.status = lookupStatusOK →
        (∀ e, substituteParms prov cr.safe_ioc cr.ioc_type qt = .error e →
          res.raw_result = .str (e.typeName ++ "\n" ++ e.toStr ++ "\n" ++ tb) ∧
          res.details = e.argsObj) ∧
        (∀ rp e, substituteParms prov cr.safe_ioc cr.ioc_type qt = .ok ("GET", rp) →
          httpGet rp = .error e →
          res.raw_result = .str (e.typeName ++ "\n" ++ e.toStr ++ "\n" ++ tb) ∧
          res.details = e.argsObj) ∧
        (∀ v rp, substituteParms prov cr.safe_ioc cr.ioc_type qt = .ok (v, rp) →
          v ≠ "GET" →
          res.raw_result = .str ("NotImplementedError" ++ "\n" ++
            ("Unsupported verb " ++ v) ++ "\n" ++ tb) ∧
          res.details = .tup [.str ("Unsupported verb " ++ v)] ∧
          res.reference = some rp.url)) := by
  by_cases hok : cr.status = lookupStatusOK
  case neg =>
    refine ⟨{ cr with provider := pn }, ?_, fun hcon => absurd hcon hok⟩
    unfold lookupIoc
    simp [hok]
  case pos =>
    cases hs : substituteParms prov cr.safe_ioc cr.ioc_type qt with
    | error e =>
      have hc := hS e hs
      refine ⟨outerHandle { cr with provider := pn } e tb Option.none, ?_, ?_⟩
      · unfold lookupIoc
        simp only [hok, hs, hc]
        simp [hok, hc]
      · intro _
        refine ⟨?_, ?_, ?_⟩
        · intro e2 he2
          injection he2 with hee
          subst hee
          exact ⟨outerHandle_raw _ _ _ _, outerHandle_details _ _ _ _⟩
        · intro rp e2 hok2 _
          exact Except.noConfusion hok2
        · intro v rp hok2 _
          exact Except.noConfusion hok2
    | ok pr =>
      obtain ⟨verb, rp⟩ := pr
      by_cases hv : verb = "GET"
      · subst hv
        cases hh : httpGet rp with
        | error e =>
          have hc := hH rp e hh
          refine ⟨outerHandle { cr with provider := pn } e tb (some rp.url), ?_, ?_⟩
          · unfold lookupIoc
            simp only [hok, hs, hh, hc]
            simp [hok, hc]
          · intro _
            refine ⟨?_, ?_, ?_⟩
            · intro e2 he2
              exact Except.noConfusion he2
            · intro rp2 e2 hok2 hh2
              injection hok2 with hpr
              have hrp : rp2 = rp := (congrArg Prod.snd hpr).symm
              subst hrp
              rw [hh] at hh2
              injection hh2 with hee
              subst hee
              exact ⟨outerHandle_raw _ _ _ _, outerHandle_details _ _ _ _⟩
            · intro v rp2 hok2 hv2
              injection hok2 with hpr
              exact absurd (congrArg Prod.fst hpr).symm hv2
        | ok resp =>
          have hexists : ∃ res,
              lookupIoc prov parse_results httpGet tb cr qt pn = .ok res := by
            unfold lookupIoc
            simp only [hok, hs, hh]
            by_cases h200 : resp.status_code = 200
            · simp only [h200]
              cases hj : resp.json with
              | error jmsg => simp [hok]
              | ok jobj =>
                simp
                cases hparse : parse_results
                    { ioc := cr.ioc, ioc_type := cr.ioc_type, safe_ioc := cr.safe_ioc
                      provider := pn, result := cr.result, severity := cr.severity
                      details := cr.details, raw_result := jobj
                      reference := some rp.url, status := 200 } with
                | error e =>
                  cases e with
                  | keyError k => exact ⟨_, rfl⟩
                  | indexError m => exact ⟨_, rfl⟩
                  | lookupError m => exact ⟨_, rfl⟩
                  | notImplementedError m => exact ⟨_, rfl⟩
                  | jsonDecodeError m => exact ⟨_, rfl⟩
                  | connectionError m => exact ⟨_, rfl⟩
                  | valueError m =>
                    have hcv := hP _ _ hparse
                    simp [PyError.isCaught] at hcv
                | ok trip => exact ⟨_, rfl⟩
            · simp [hok, h200]
          obtain ⟨res, hres⟩ := hexists
          refine ⟨res, hres, ?_⟩
          intro _
          refine ⟨?_, ?_, ?_⟩
          · intro e2 he2
            exact Except.noConfusion he2
          · intro rp2 e2 hok2 hh2
            injection hok2 with hpr
            have hrp : rp2 = rp := (congrArg Prod.snd hpr).symm
            subst hrp
            rw [hh] at hh2
            exact Except.noConfusion hh2
          · intro v rp2 hok2 hv2
            injection hok2 with hpr
            exact absurd (congrArg Prod.fst hpr).symm hv2
      · refine ⟨outerHandle { cr with provider := pn }
          (.notImplementedError ("Unsupported verb " ++ verb)) tb (some rp.url), ?_, ?_⟩
        · unfold lookupIoc
          simp only [hok, hs, hv]
          simp [hok, hv]
        · intro _
          refine ⟨?_, ?_, ?_⟩
          · intro e2 he2
            exact Except.noConfusion he2
          · intro rp2 e2 hok2 _
            injection hok2 with hpr
            exact absurd (congrArg Prod.fst hpr) hv
          · intro v rp2 hok2 hv2
            injection hok2 with hpr
            have hvv : verb = v := congrArg Prod.fst hpr
            have hrp : rp = rp2 := congrArg Prod.snd hpr
            subst hvv
            subst hrp
            exact ⟨outerHandle_raw _ _ _ _, outerHandle_details _ _ _ _,
              outerHandle_reference _ _ _ _ rfl⟩

/-- C1 witness: `lookup_ioc_never_raises` applied at a provider with no
registered templates and a connection-failing transport. -/
theorem lookup_ioc_never_raises_witness :
    ∃ res : LookupResult,
      lookupIoc {} w1parse w1http "TB" w1cr Option.none "Prov" = .ok res ∧
      (w1cr.status = lookupStatusOK →
        (∀ e, substituteParms {} w1cr.safe_ioc w1cr.ioc_type Option.none = .error e →
          res.raw_result = .str (e.typeName ++ "\n" ++ e.toStr ++ "\n" ++ "TB") ∧
          res.details = e.argsObj) ∧
        (∀ rp e, substituteParms {} w1cr.safe_ioc w1cr.ioc_type Option.none =
            .ok ("GET", rp) →
          w1http rp = .error e →
          res.raw_result = .str (e.typeName ++ "\n" ++ e.toStr ++ "\n" ++ "TB") ∧
          res.details = e.argsObj) ∧
        (∀ v rp, substituteParms {} w1cr.safe_ioc w1cr.ioc_type Option.none =
            .ok (v, rp) →
          v ≠ "GET" →
          res.raw_result = .str ("NotImplementedError" ++ "\n" ++
            ("Unsupported verb " ++ v) ++ "\n" ++ "TB") ∧
          res.details = .tup [.str ("Unsupported verb " ++ v)] ∧
          res.reference = some rp.url)) :=
  lookup_ioc_never_raises {} w1parse w1http "TB" w1cr Option.none "Prov"
    (fun e he => by
      have hval : substituteParms ({} : HttpProvider) w1cr.safe_ioc w1cr.ioc_type
          Option.none =
          .error (.lookupError "Provider does not support this type ipv4.") := rfl
      rw [hval] at he
      injection he with hee
      rw [← hee]
      rfl)
    (fun rp e he => by
      have hval : w1http rp = .error (.connectionError "boom") := rfl
      rw [hval] at he
      injection he with hee
      rw [← hee]
      rfl)
    (fun r e he => Except.noConfusion he)
